import Mathlib

/-!
Verification of the gpp-fastapi institutional-administration portal.

This file shallowly embeds the parts of the Python code base (FastAPI +
SQLAlchemy) that the specification's claims are about:

* the role-checking dependency (`app/middleware/auth.py`) and the admin
  role-management endpoints (`app/api/admin.py`);
* the global exception handler (`app/middleware/error.py`);
* the feedback analysis (`app/services/feedback.py`);
* the department service and endpoints (`app/services/department.py`,
  `app/api/departments.py`), including CSV export/import;
* the user/role service (`app/services/user.py`) and the student service
  (`app/services/student.py`);
* the JWT user resolution (`app/services/auth.py`).

Database tables are embedded as Lean lists of records, sessions as
explicit state passing, raised exceptions as `Except`, and Python
truthiness/`str` behaviour is modelled explicitly where it matters.
-/

namespace Gpp

/-! ## Python string primitives used by the services -/

/-- Characters treated as whitespace by Python's `str.strip()`. -/
def pyIsSpace (c : Char) : Bool :=
  c = ' ' || c = '\t' || c = '\n' || c = '\r' || c = '\x0b' || c = '\x0c'

/-- Model of Python `str.strip()`: drop leading and trailing whitespace. -/
def pyStrip (s : String) : String :=
  String.mk (((s.data.dropWhile pyIsSpace).reverse.dropWhile pyIsSpace).reverse)

/-- Model of Python `str.lower()` (ASCII range, which is all this code feeds it). -/
def pyLower (s : String) : String :=
  String.mk (s.data.map Char.toLower)

/-- Model of Python `str.upper()` (ASCII range, which is all this code feeds it). -/
def pyUpper (s : String) : String :=
  String.mk (s.data.map Char.toUpper)

/-- Python truthiness of an optional string: `None` and `""` are falsy. -/
def pyTruthy : Option String → Bool
  | none => false
  | some s => s ≠ ""

/-- Substring test on character lists (model of SQL `ilike '%pat%'` after lowering,
and of Python `in` on strings). -/
def charSub : List Char → List Char → Bool
  | needle, [] => needle.isEmpty
  | needle, c :: t => needle.isPrefixOf (c :: t) || charSub needle t

/-- Case-insensitive containment, the meaning of `column.ilike(f"%pat%")`. -/
def ilikeContains (haystack pat : String) : Bool :=
  charSub (pyLower pat).data (pyLower haystack).data

/-! ## Global exception handler (`app/middleware/error.py`)

Python exceptions are classified by `isinstance` tests in source order.
The embedding keeps the exception-class hierarchy that matters here:
`IntegrityError` is a subclass of `SQLAlchemyError`, and the five classes
tested are otherwise disjoint. -/

/-- Exception classes distinguished by `error_handler`, plus a catch-all. -/
inductive PyExc where
  | appError (message : String) (statusCode : Nat)
  | validationError
  | integrityError
  | otherSQLAlchemyError
  | jwtError
  | otherException
deriving DecidableEq, Repr

/-- Test `isinstance(exc, AppError)`. -/
def isAppError : PyExc → Bool
  | .appError _ _ => true
  | _ => false

/-- Test `isinstance(exc, ValidationError)`. -/
def isValidationError : PyExc → Bool
  | .validationError => true
  | _ => false

/-- Test `isinstance(exc, IntegrityError)`. -/
def isIntegrityError : PyExc → Bool
  | .integrityError => true
  | _ => false

/-- Test `isinstance(exc, SQLAlchemyError)`; `IntegrityError` is a subclass of
`SQLAlchemyError`, so it also passes this test. -/
def isSQLAlchemyError : PyExc → Bool
  | .integrityError => true
  | .otherSQLAlchemyError => true
  | _ => false

/-- Test `isinstance(exc, JWTError)`. -/
def isJWTError : PyExc → Bool
  | .jwtError => true
  | _ => false

/-- JSON error envelope produced by the handler (`ErrorResponse` plus the HTTP
status code and the optional `WWW-Authenticate` header). -/
structure ErrEnvelope where
  statusCode : Nat
  status : String
  message : String
  wwwAuthenticate : Option String
deriving DecidableEq, Repr

/-- Embedding of `error_handler`'s classification of an escaped exception:
the `isinstance` tests run in source order. -/
def error_handler (e : PyExc) : ErrEnvelope :=
  if isAppError e then
    match e with
    | .appError msg sc => ⟨sc, "error", msg, none⟩
    | _ => ⟨500, "error", "Internal server error", none⟩
  else if isValidationError e then
    ⟨422, "error", "Validation error", none⟩
  else if isIntegrityError e then
    ⟨409, "error", "Database integrity error", none⟩
  else if isSQLAlchemyError e then
    ⟨500, "error", "Database error", none⟩
  else if isJWTError e then
    ⟨401, "error", "Invalid authentication credentials", some "Bearer"⟩
  else
    ⟨500, "error", "Internal server error", none⟩

/-! ## Authentication and role checking
(`app/services/auth.py`, `app/middleware/auth.py`, `app/api/admin.py`) -/

/-- User as seen by the auth layer: the `users` row fields that matter here,
with `roles` the names of the user's roles in relationship order. -/
structure AuthUser where
  id : String
  roles : List String
  selectedRole : Option String
deriving DecidableEq, Repr

/-- Embedding of `check_role` (`app/services/auth.py`): falsy `selected_role`
means no access, otherwise membership in the required roles. -/
def check_role (user : AuthUser) (required_roles : List String) : Bool :=
  match user.selectedRole with
  | none => false
  | some r => if r = "" then false else required_roles.contains r

/-- Embedding of `RoleChecker.__call__` (`app/middleware/auth.py`): reject the
request with HTTP 403 when `check_role` fails, otherwise pass the user on. -/
def RoleChecker (required_roles : List String) (current_user : AuthUser) :
    Except Nat AuthUser :=
  if check_role current_user required_roles then .ok current_user else .error 403

/-- Required-role list of the `require_admin` dependency. -/
def require_admin : List String := ["admin"]

/-- Declared FastAPI dependencies of an endpoint, as written in its signature. -/
inductive EndpointDep where
  | dbSession
  | fileUpload
  | requireRoles (required : List String)
deriving DecidableEq, Repr

/-- Dependencies of `GET /admin/roles/export` (`export_roles_endpoint`). -/
def export_roles_endpoint_deps : List EndpointDep := [.dbSession]

/-- Dependencies of `GET /admin/roles` (`get_all_roles`). -/
def get_all_roles_deps : List EndpointDep := [.dbSession]

/-- Dependencies of `POST /admin/roles` (`add_role`). -/
def add_role_deps : List EndpointDep := [.dbSession]

/-- Dependencies of `GET /admin/roles/role_name` (`get_role_by_name`): the one
role endpoint that does declare `require_admin`. -/
def get_role_by_name_deps : List EndpointDep := [.requireRoles require_admin, .dbSession]

/-- Dependencies of `PATCH /admin/roles/role_id` (`update_role_endpoint`). -/
def update_role_endpoint_deps : List EndpointDep := [.dbSession]

/-- Dependencies of `DELETE /admin/roles/role_id` (`delete_role_endpoint`). -/
def delete_role_endpoint_deps : List EndpointDep := [.dbSession]

/-- Dependencies of `POST /admin/roles/import` (`import_roles_endpoint`). -/
def import_roles_endpoint_deps : List EndpointDep := [.fileUpload, .dbSession]

/-- FastAPI rejects a request with 403 exactly when some declared `RoleChecker`
dependency fails for the caller; an endpoint with no such dependency never
rejects on role grounds. -/
def dependenciesReject403 (deps : List EndpointDep) (caller : AuthUser) : Bool :=
  deps.any fun d =>
    match d with
    | .requireRoles rs => !(check_role caller rs)
    | _ => false

/-- JWT payload fields read by `get_current_user`. -/
structure TokenPayload where
  id : Option String
  selected_role : Option String
deriving DecidableEq, Repr

/-- Embedding of `get_user` (`app/services/user.py`): first row matching the id. -/
def get_user (users : List AuthUser) (user_id : String) : Option AuthUser :=
  users.find? fun u => u.id = user_id

/-- Role fix-up inside `get_current_user` (`app/services/auth.py`): a truthy
`selected_role` that is not among the user's role names is replaced by the
user's first role name (or `None` when the user has no roles); anything else
is written back as-is. -/
def fixSelectedRole (roleNames : List String) : Option String → Option String
  | none => none
  | some s => if !(s == "") && !(roleNames.contains s) then roleNames.head? else some s

/-- Embedding of `get_current_user` (`app/services/auth.py`): `none` for the
decoded token models a JWT that failed verification (`JWTError`); every failure
path raises the 401 credentials exception. -/
def get_current_user (users : List AuthUser) (decoded : Option TokenPayload) :
    Except Nat AuthUser :=
  match decoded with
  | none => .error 401
  | some payload =>
    match payload.id with
    | none => .error 401
    | some uid =>
      match get_user users uid with
      | none => .error 401
      | some user =>
        .ok { user with selectedRole := fixSelectedRole user.roles payload.selected_role }

/-- Concrete caller who holds only the student role. -/
def studentCaller : AuthUser := ⟨"u-student", ["student"], some "student"⟩

/-! ## Relational state (`app/models/*.py`)

Each table is a list of rows; only the columns the claims touch are kept.
`PyDate` models a Python `datetime` value. -/

/-- Python `datetime` value (to second granularity, which this code never
exceeds). -/
structure PyDate where
  year : Nat
  month : Nat
  day : Nat
  hour : Nat
  minute : Nat
  second : Nat
deriving DecidableEq, Repr

/-- Row of the `departments` table (`app/models/department.py`). -/
structure Department where
  id : String
  name : String
  code : String
  description : String
  hodId : Option String
  establishedDate : Option PyDate
  isActive : Bool
deriving DecidableEq, Repr

/-- Row of the `users` table (`app/models/user.py`), with `roles` the names
from the `user_roles` join table. -/
structure UserRow where
  id : String
  name : String
  email : String
  roles : List String
  selectedRole : Option String
  departmentId : Option String
deriving DecidableEq, Repr

/-- Row of the `roles` table (`app/models/user.py`); `name` is the primary key. -/
structure RoleRow where
  name : String
  description : String
  permissions : List String
deriving DecidableEq, Repr

/-- Row of the `students` table (`app/models/student.py`), key columns only. -/
structure StudentRow where
  id : String
  userId : Option String
  departmentId : String
  enrollmentNo : String
  institutionalEmail : String
deriving DecidableEq, Repr

/-- Row of the `faculties` table (`app/models/faculty.py`), the columns
`update_faculty` touches. -/
structure FacultyRow where
  id : String
  userId : Option String
  employeeId : String
  departmentId : String
  designation : String
  specializations : List String
  joiningDate : Option PyDate
  status : String
  experienceYears : Option Nat
  experienceDetails : Option String
deriving DecidableEq, Repr

/-- Row of the `faculty_qualifications` table. -/
structure Qualification where
  degree : String
  field : String
  institution : String
  year : Nat
deriving DecidableEq, Repr

/-- Database state: one list per table this development needs. -/
structure DbState where
  users : List UserRow
  roles : List RoleRow
  students : List StudentRow
  departments : List Department
  faculties : List FacultyRow
  facultyQualifications : List (String × Qualification)
deriving DecidableEq, Repr

/-- Embedding of the `AppError` exception (`app/middleware/error.py`): a
message together with an HTTP status code. -/
structure AppErr where
  message : String
  statusCode : Nat
deriving DecidableEq, Repr

/-- Exceptions an endpoint body can raise: FastAPI's `HTTPException` or the
application's `AppError`. -/
inductive RaisedExc where
  | httpException (statusCode : Nat) (detail : String)
  | appError (message : String) (statusCode : Nat)
deriving DecidableEq, Repr

/-- Python `str()` of a raised exception: Starlette's `HTTPException.__str__`
is `"{status_code}: {detail}"`; `AppError.__str__` is its message. -/
def strOfExc : RaisedExc → String
  | .httpException sc detail => toString sc ++ ": " ++ detail
  | .appError msg _ => msg

/-- Outcome of an HTTP request: a success envelope with a body, or an error
status code with a detail string. -/
inductive ApiOutcome (α : Type) where
  | success (body : α)
  | failure (statusCode : Nat) (detail : String)
deriving DecidableEq, Repr

/-! ## Department service (`app/services/department.py`) -/

/-- Embedding of `get_department`: first row with the given id. -/
def get_department (st : DbState) (department_id : String) : Option Department :=
  st.departments.find? fun d => d.id = department_id

/-- Embedding of `get_department_by_code`: first row with the given code. -/
def get_department_by_code (st : DbState) (code : String) : Option Department :=
  st.departments.find? fun d => d.code = code

/-- Search predicate of `get_departments`: `ilike '%search%'` on name, code or
description. -/
def departmentMatches (search : String) (d : Department) : Bool :=
  ilikeContains d.name search || ilikeContains d.code search ||
    ilikeContains d.description search

/-- Embedding of `get_departments`: filter by search (only when the search
string is truthy), count the total before pagination, sort by the requested
column (`sortKey` stands for `getattr(Department, sort_by)`), then apply
`offset((page - 1) * limit).limit(limit)`. -/
def get_departments (st : DbState) (page limit : Nat) (search : Option String)
    (sortKey : Department → String) (sort_order : String) :
    List Department × Nat :=
  let q := if pyTruthy search
    then st.departments.filter (departmentMatches (search.getD ""))
    else st.departments
  let total := q.length
  let sorted := if pyLower sort_order = "desc"
    then List.insertionSort (fun a b => sortKey b ≤ sortKey a) q
    else List.insertionSort (fun a b => sortKey a ≤ sortKey b) q
  let skip := (page - 1) * limit
  ((sorted.drop skip).take limit, total)

/-- Error message of the HOD-role check in the department service. -/
def hodRoleRequiredMsg : String :=
  "User must have HOD role to be assigned as department head"

/-- Input of `create_department` (`DepartmentCreate` schema). -/
structure DepartmentCreate where
  name : String
  code : String
  description : String
  established_date : Option PyDate
  is_active : Bool
  hod_id : Option String
deriving DecidableEq, Repr

/-- Embedding of `create_department`: 409 when the code already exists, then
HOD existence (404) and HOD-role (400) checks, then the insert. `newId` stands
for the generated UUID primary key. -/
def create_department (st : DbState) (dc : DepartmentCreate) (newId : String) :
    Except AppErr (DbState × Department) :=
  let insert : Except AppErr (DbState × Department) :=
    let d : Department :=
      ⟨newId, dc.name, dc.code, dc.description, dc.hod_id, dc.established_date,
        dc.is_active⟩
    .ok ({ st with departments := st.departments ++ [d] }, d)
  if (get_department_by_code st dc.code).isSome then
    .error ⟨"Department code " ++ dc.code ++ " already exists", 409⟩
  else if pyTruthy dc.hod_id then
    match st.users.find? (fun u => u.id = dc.hod_id.getD "") with
    | none => .error ⟨"User with ID " ++ dc.hod_id.getD "" ++ " not found", 404⟩
    | some hod =>
      if !(hod.roles.contains "hod") then .error ⟨hodRoleRequiredMsg, 400⟩
      else insert
  else insert

/-- Input of `update_department` (`DepartmentUpdate` schema): every field
optional. -/
structure DepartmentUpdate where
  name : Option String
  code : Option String
  description : Option String
  established_date : Option PyDate
  is_active : Option Bool
  hod_id : Option String
deriving DecidableEq, Repr

/-- Name-field update of `update_department` (`if department.name is not None`). -/
def deptNameUpdate (dep : DepartmentUpdate) (d0 : Department) : Department :=
  match dep.name with
  | some n => { d0 with name := n }
  | none => d0

/-- Code-change step of `update_department`: a provided code that differs from
the row's current code is pre-checked against the table; a hit on a different
row is a 409, a hit on the row itself is allowed. -/
def deptCodeUpdate (st : DbState) (department_id : String) (dep : DepartmentUpdate)
    (d0 x : Department) : Except AppErr Department :=
  match dep.code with
  | some c =>
    if c ≠ d0.code then
      match get_department_by_code st c with
      | some existing =>
        if existing.id ≠ department_id then
          .error ⟨"Department code " ++ c ++ " already exists", 409⟩
        else .ok { x with code := c }
      | none => .ok { x with code := c }
    else .ok x
  | none => .ok x

/-- Scalar-field updates of `update_department` for description, established
date and active flag (`is not None` guards). -/
def deptScalarUpdates (dep : DepartmentUpdate) (x : Department) : Department :=
  let d3 := match dep.description with
    | some v => { x with description := v }
    | none => x
  let d4 := match dep.established_date with
    | some v => { d3 with establishedDate := some v }
    | none => d3
  match dep.is_active with
  | some v => { d4 with isActive := v }
  | none => d4

/-- HOD-assignment step of `update_department`: empty string clears the HOD,
otherwise the user must exist (404) and hold the hod role (400). -/
def deptHodUpdate (st : DbState) (dep : DepartmentUpdate) (x : Department) :
    Except AppErr Department :=
  match dep.hod_id with
  | none => .ok x
  | some h =>
    if h = "" then .ok { x with hodId := none }
    else
      match st.users.find? (fun u => u.id = h) with
      | none => .error ⟨"User with ID " ++ h ++ " not found", 404⟩
      | some hod =>
        if hod.roles.contains "hod" then .ok { x with hodId := some h }
        else .error ⟨hodRoleRequiredMsg, 400⟩

/-- Embedding of `update_department`: `None` result for a missing row, then
the field-update steps above in source order, then the commit writes the
mutated row back. -/
def update_department (st : DbState) (department_id : String)
    (dep : DepartmentUpdate) : Except AppErr (Option (DbState × Department)) :=
  match get_department st department_id with
  | none => .ok none
  | some d0 =>
    match deptCodeUpdate st department_id dep d0 (deptNameUpdate dep d0) with
    | .error e => .error e
    | .ok d2 =>
      match deptHodUpdate st dep (deptScalarUpdates dep d2) with
      | .error e => .error e
      | .ok d6 =>
        .ok (some ({ st with
          departments :=
            st.departments.map fun x => if x.id = department_id then d6 else x }, d6))

/-- Embedding of `delete_department`: `False` and unchanged state for a
missing row, otherwise delete the row and report `True`. -/
def delete_department (st : DbState) (department_id : String) : Bool × DbState :=
  match get_department st department_id with
  | none => (false, st)
  | some _ =>
    (true, { st with
      departments := st.departments.eraseP fun x => x.id == department_id })

/-! ## Department endpoints (`app/api/departments.py`)

Every handler there wraps its whole body in `try: ... except Exception as e:
raise HTTPException(400, str(e))`; since FastAPI's `HTTPException` and the
application's `AppError` are both `Exception` subclasses, that catch-all also
rewraps the handler's own 404/409 into a 400. -/

/-- Embedding of `PATCH /departments/department_id` (`update_department_by_id`):
the body raises 404 when the service reports a missing row, and the trailing
`except Exception` rewraps every raised exception into an HTTP 400. -/
def update_department_by_id (st : DbState) (department_id : String)
    (dep : DepartmentUpdate) : ApiOutcome (DbState × Department) :=
  let body : Except RaisedExc (DbState × Department) :=
    match update_department st department_id dep with
    | .error e => .error (.appError e.message e.statusCode)
    | .ok none => .error (.httpException 404 "Department not found")
    | .ok (some r) => .ok r
  match body with
  | .ok r => .success r
  | .error e => .failure 400 (strOfExc e)

/-- Embedding of `DELETE /departments/department_id`
(`delete_department_by_id`): the handler calls `delete_department` but ignores
its boolean result and always returns the success envelope. -/
def delete_department_by_id (st : DbState) (department_id : String) :
    ApiOutcome (DbState × String) :=
  let r := delete_department st department_id
  .success (r.2, "Department deleted successfully")

/-! ## Faculty service (`app/services/faculty.py`) and faculty endpoint -/

/-- Python dict with optional keys `years` and `details`
(`faculty_data.experience`). -/
structure ExperienceDict where
  years : Option Nat
  details : Option String
deriving DecidableEq, Repr

/-- Input of `update_faculty` (`FacultyUpdate` schema). -/
structure FacultyUpdate where
  name : Option String
  email : Option String
  employee_id : Option String
  department_id : Option String
  designation : Option String
  specializations : Option (List String)
  joining_date : Option PyDate
  status : Option String
  experience : Option ExperienceDict
  qualifications : Option (List Qualification)
deriving DecidableEq, Repr

/-- Python truthiness of an optional list: `None` and `[]` are falsy. -/
def pyListTruthy {α : Type} (o : Option (List α)) : Bool :=
  match o with
  | none => false
  | some l => !l.isEmpty

/-- Python truthiness of the optional experience dict: `None` and an empty
dict are falsy. -/
def expTruthy (o : Option ExperienceDict) : Bool :=
  match o with
  | none => false
  | some e => e.years.isSome || e.details.isSome

/-- Embedding of `get_faculty`: first row with the given id. -/
def get_faculty (st : DbState) (faculty_id : String) : Option FacultyRow :=
  st.faculties.find? fun f => f.id = faculty_id

/-- Embedding of `get_faculty_by_employee_id`. -/
def get_faculty_by_employee_id (st : DbState) (employee_id : String) : Option FacultyRow :=
  st.faculties.find? fun f => f.employeeId = employee_id

/-- Embedding of `get_user_by_email` (`app/services/user.py`). -/
def get_user_by_email (st : DbState) (email : String) : Option UserRow :=
  st.users.find? fun u => u.email = email

/-- Embedding of `update_faculty`: `None` for a missing row; truthiness-guarded
updates of the linked user's name/email (with a 409 pre-check on a changed
email), the employee id (409 pre-check), the department (404 existence check,
also propagated to the user), the remaining scalar fields, and full
replacement of the qualification rows. -/
def update_faculty (st : DbState) (faculty_id : String) (fd : FacultyUpdate) :
    Except AppErr (Option (DbState × FacultyRow)) := do
  match get_faculty st faculty_id with
  | none => return none
  | some f0 => do
    let userOpt := f0.userId.bind fun uid => st.users.find? fun u => u.id = uid
    if userOpt.isNone && (pyTruthy fd.name || pyTruthy fd.email) then
      throw (⟨"Associated user not found", 404⟩ : AppErr)
    let user1 ← match userOpt with
      | none => pure (none : Option UserRow)
      | some u => do
        let ua := if pyTruthy fd.name then { u with name := fd.name.getD "" } else u
        let ub ← if pyTruthy fd.email && !(fd.email.getD "" == u.email) then do
            match get_user_by_email st (fd.email.getD "") with
            | some existing =>
              if existing.id ≠ u.id then
                throw (⟨"Email " ++ fd.email.getD "" ++ " already exists", 409⟩ : AppErr)
              else pure { ua with email := fd.email.getD "" }
            | none => pure { ua with email := fd.email.getD "" }
          else pure ua
        pure (some ub)
    let f1 ← if pyTruthy fd.employee_id && !(fd.employee_id.getD "" == f0.employeeId) then do
        match get_faculty_by_employee_id st (fd.employee_id.getD "") with
        | some existing =>
          if existing.id ≠ faculty_id then
            throw (⟨"Employee ID " ++ fd.employee_id.getD "" ++ " already exists", 409⟩ : AppErr)
          else pure { f0 with employeeId := fd.employee_id.getD "" }
        | none => pure { f0 with employeeId := fd.employee_id.getD "" }
      else pure f0
    let fu ← if pyTruthy fd.department_id then do
        if (st.departments.find? fun d => d.id = fd.department_id.getD "").isNone then
          throw (⟨"Department with ID " ++ fd.department_id.getD "" ++ " not found", 404⟩ : AppErr)
        pure ({ f1 with departmentId := fd.department_id.getD "" },
          user1.map fun u => { u with departmentId := fd.department_id })
      else pure (f1, user1)
    let f2 := fu.1
    let user2 := fu.2
    let f3 := if pyTruthy fd.designation then
        { f2 with designation := fd.designation.getD "" } else f2
    let f4 := if pyListTruthy fd.specializations then
        { f3 with specializations := fd.specializations.getD [] } else f3
    let f5 := if fd.joining_date.isSome then { f4 with joiningDate := fd.joining_date } else f4
    let f6 := if pyTruthy fd.status then { f5 with status := fd.status.getD "" } else f5
    let f7 := if expTruthy fd.experience then
        (let e := fd.experience.getD ⟨none, none⟩
         let fa := match e.years with
           | some y => { f6 with experienceYears := some y }
           | none => f6
         match e.details with
         | some dtl => { fa with experienceDetails := some dtl }
         | none => fa)
      else f6
    let quals := if pyListTruthy fd.qualifications then
        (st.facultyQualifications.filter fun q => q.1 ≠ faculty_id) ++
          (fd.qualifications.getD []).map fun q => (faculty_id, q)
      else st.facultyQualifications
    let st' := { st with
      faculties := st.faculties.map fun x => if x.id = faculty_id then f7 else x
      users := match user2 with
        | some u2 => st.users.map fun x => if x.id = u2.id then u2 else x
        | none => st.users
      facultyQualifications := quals }
    return some (st', f7)

/-- Modelled from the spec: the faculty router file breaks off inside
`update_faculty_by_id`, so its trailing `except` clause is not in the sources;
every other handler in that file ends with `except AppError as e: raise
HTTPException(e.status_code, e.message)`, and the spec says a PATCH with an
unknown faculty id returns 404, so the missing footer is modelled as that same
`except AppError` clause (which, unlike the departments router's catch-all,
lets the handler's own `HTTPException(404)` escape unchanged). The `try` body
— service call, then `raise HTTPException(404, "Faculty not found")` on a
`None` result — is embedded from the source. -/
def update_faculty_by_id (st : DbState) (faculty_id : String) (fd : FacultyUpdate) :
    ApiOutcome (DbState × FacultyRow) :=
  match update_faculty st faculty_id fd with
  | .ok (some r) => .success r
  | .ok none => .failure 404 "Faculty not found"
  | .error e => .failure e.statusCode e.message

/-! ## User and role service (`app/services/user.py`) -/

/-- Search predicate of `get_users`: `ilike '%search%'` on name or email. -/
def userMatchesSearch (search : String) (u : UserRow) : Bool :=
  ilikeContains u.name search || ilikeContains u.email search

/-- Filter chain of `get_users` before the count: search, then role (skipped
for falsy role or the literal "all"), then department id (same rule). -/
def usersAfterFilters (st : DbState) (search role department_id : Option String) :
    List UserRow :=
  let q := st.users
  let q := if pyTruthy search then q.filter (userMatchesSearch (search.getD "")) else q
  let q := if pyTruthy role && !(role.getD "" == "all")
    then q.filter fun u => u.roles.contains (role.getD "") else q
  let q := if pyTruthy department_id && !(department_id.getD "" == "all")
    then q.filter fun u => u.departmentId == some (department_id.getD "") else q
  q

/-- Embedding of `get_users`: filter, count the total, sort, then apply
`offset(skip).limit(limit)`. -/
def get_users (st : DbState) (skip limit : Nat)
    (search role department_id : Option String)
    (sortKey : UserRow → String) (sort_order : String) : List UserRow × Nat :=
  let q := usersAfterFilters st search role department_id
  let total := q.length
  let sorted := if pyLower sort_order = "desc"
    then List.insertionSort (fun a b => sortKey b ≤ sortKey a) q
    else List.insertionSort (fun a b => sortKey a ≤ sortKey b) q
  ((sorted.drop skip).take limit, total)

/-- Input of `create_user` (`UserCreate` schema). -/
structure UserCreate where
  name : String
  email : String
  password : String
  department_id : Option String
  roles : List String
  selected_role : Option String
deriving DecidableEq, Repr

/-- Embedding of `create_user`: 409 when the email is taken; only role names
that exist in the roles table are attached; the stored selected role is
`(selected_role or roles[0]) if roles else None` — Python's conditional
binds looser than `or`, so an empty roles list forces `None`. -/
def create_user (st : DbState) (uc : UserCreate) (newId : String) :
    Except AppErr (DbState × UserRow) :=
  match get_user_by_email st uc.email with
  | some _ => .error ⟨"Email " ++ uc.email ++ " is already registered", 409⟩
  | none =>
    let roles := uc.roles.filter fun rn => (st.roles.find? fun r => r.name = rn).isSome
    let sel := if !uc.roles.isEmpty then
        (if pyTruthy uc.selected_role then uc.selected_role else uc.roles.head?)
      else none
    let u : UserRow := ⟨newId, uc.name, uc.email, roles, sel, uc.department_id⟩
    .ok ({ st with users := st.users ++ [u] }, u)

/-- Input of `update_user` (`UserUpdate` schema). -/
structure UserUpdate where
  name : Option String
  email : Option String
  department_id : Option String
  roles : Option (List String)
deriving DecidableEq, Repr

/-- Name-field update of `update_user` (`if user.name is not None`). -/
def userNameUpdate (uu : UserUpdate) (u0 : UserRow) : UserRow :=
  match uu.name with
  | some n => { u0 with name := n }
  | none => u0

/-- Email-change step of `update_user`: a provided email that differs from the
row's current email is pre-checked against the table (409 on any hit). -/
def userEmailUpdate (st : DbState) (uu : UserUpdate) (u0 x : UserRow) :
    Except AppErr UserRow :=
  match uu.email with
  | some e =>
    if e ≠ u0.email then
      match get_user_by_email st e with
      | some _ => .error ⟨"Email " ++ e ++ " is already registered", 409⟩
      | none => .ok { x with email := e }
    else .ok x
  | none => .ok x

/-- Department and roles updates of `update_user`: a roles update keeps only
existing role names and resets the selected role to the first requested name
when the current one is not among the requested names. -/
def userTailUpdates (st : DbState) (uu : UserUpdate) (x : UserRow) : UserRow :=
  let u3 := match uu.department_id with
    | some d => { x with departmentId := some d }
    | none => x
  match uu.roles with
  | some rs =>
    let kept := rs.filter fun rn => (st.roles.find? fun r => r.name = rn).isSome
    let ua := { u3 with roles := kept }
    let selIn := match u3.selectedRole with
      | some s => rs.contains s
      | none => false
    if !selIn then { ua with selectedRole := rs.head? } else ua
  | none => u3

/-- Embedding of `update_user`: `None` for a missing row, then the steps above
in source order, then the commit writes the mutated row back. -/
def update_user (st : DbState) (user_id : String) (uu : UserUpdate) :
    Except AppErr (Option (DbState × UserRow)) :=
  match st.users.find? (fun u => u.id = user_id) with
  | none => .ok none
  | some u0 =>
    match userEmailUpdate st uu u0 (userNameUpdate uu u0) with
    | .error e => .error e
    | .ok u2 =>
      let u4 := userTailUpdates st uu u2
      .ok (some ({ st with
        users := st.users.map fun x => if x.id = user_id then u4 else x }, u4))

/-- Embedding of `get_roles`: all rows of the roles table, in table order. -/
def get_roles (st : DbState) : List RoleRow :=
  st.roles

/-- Embedding of `get_role`: first role with the given name. -/
def get_role (st : DbState) (role_name : String) : Option RoleRow :=
  st.roles.find? fun r => r.name = role_name

/-- Embedding of `create_role`: 409 when the name is taken, else insert. -/
def create_role (st : DbState) (role_name description : String)
    (permissions : List String) : Except AppErr (DbState × RoleRow) :=
  match get_role st role_name with
  | some _ => .error ⟨"Role " ++ role_name ++ " already exists", 409⟩
  | none =>
    let r : RoleRow := ⟨role_name, description, permissions⟩
    .ok ({ st with roles := st.roles ++ [r] }, r)

/-- Embedding of `update_role`: `None` for a missing role, otherwise update
the fields that were provided. -/
def update_role (st : DbState) (role_name : String) (description : Option String)
    (permissions : Option (List String)) : Option (DbState × RoleRow) :=
  match get_role st role_name with
  | none => none
  | some r0 =>
    let r1 := match description with
      | some d => { r0 with description := d }
      | none => r0
    let r2 := match permissions with
      | some ps => { r1 with permissions := ps }
      | none => r1
    some ({ st with roles := st.roles.map fun x => if x.name = role_name then r2 else x }, r2)

/-- Embedding of `delete_role`: `False` for a missing role, else delete. -/
def delete_role (st : DbState) (role_name : String) : Bool × DbState :=
  match get_role st role_name with
  | none => (false, st)
  | some _ => (true, { st with roles := st.roles.eraseP fun r => r.name == role_name })

/-! ## Student service (`app/services/student.py`)

`StudentRow` keeps only the claim-relevant columns (ids, enrollment number,
institutional email, department); the service's updates to the many other
scalar/child columns do not touch these and are outside the embedded state. -/

/-- Embedding of `get_student_by_enrollment_no`. -/
def get_student_by_enrollment_no (st : DbState) (enrollment_no : String) :
    Option StudentRow :=
  st.students.find? fun s => s.enrollmentNo = enrollment_no

/-- Input of `create_student` (`StudentCreate` schema), key fields. -/
structure StudentCreate where
  name : String
  email : String
  enrollment_no : String
  institutional_email : String
  department_id : String
deriving DecidableEq, Repr

/-- Embedding of `create_student` on the embedded columns: 409 pre-checks on
the enrollment number and the institutional email, 404 when the department is
missing, then reuse or create the linked user (the new user gets the student
role when that role exists) and insert the student row. -/
def create_student (st : DbState) (sc : StudentCreate)
    (newUserId newStudentId : String) : Except AppErr (DbState × StudentRow) :=
  if (get_student_by_enrollment_no st sc.enrollment_no).isSome then
    .error ⟨"Enrollment number " ++ sc.enrollment_no ++ " already exists", 409⟩
  else if (st.students.find? fun s => s.institutionalEmail = sc.institutional_email).isSome then
    .error ⟨"Institutional email " ++ sc.institutional_email ++ " already exists", 409⟩
  else if (st.departments.find? fun d => d.id = sc.department_id).isNone then
    .error ⟨"Department with ID " ++ sc.department_id ++ " not found", 404⟩
  else
    let reused := get_user_by_email st sc.email
    let uid := match reused with
      | some u => u.id
      | none => newUserId
    let users' := match reused with
      | some _ => st.users
      | none =>
        let hasStudentRole := (st.roles.find? fun r => r.name = "student").isSome
        st.users ++ [⟨newUserId, sc.name, sc.email,
          if hasStudentRole then ["student"] else [],
          if hasStudentRole then some "student" else none, some sc.department_id⟩]
    let srow : StudentRow :=
      ⟨newStudentId, some uid, sc.department_id, sc.enrollment_no, sc.institutional_email⟩
    .ok ({ st with users := users', students := st.students ++ [srow] }, srow)

/-- Input of `update_student` (`StudentUpdate` schema), key fields. -/
structure StudentUpdate where
  enrollment_no : Option String
  institutional_email : Option String
  name : Option String
  email : Option String
  department_id : Option String
deriving DecidableEq, Repr

/-- Enrollment-number change step of `update_student`: a truthy changed
enrollment number is pre-checked against the table; a hit on a different row
is a 409, a hit on the row itself is allowed. -/
def stuEnrollUpdate (st : DbState) (student_id : String) (su : StudentUpdate)
    (s0 : StudentRow) : Except AppErr StudentRow :=
  if pyTruthy su.enrollment_no && !(su.enrollment_no.getD "" == s0.enrollmentNo) then
    match get_student_by_enrollment_no st (su.enrollment_no.getD "") with
    | some existing =>
      if existing.id ≠ student_id then
        .error ⟨"Enrollment number " ++ su.enrollment_no.getD "" ++ " already exists", 409⟩
      else .ok { s0 with enrollmentNo := su.enrollment_no.getD "" }
    | none => .ok { s0 with enrollmentNo := su.enrollment_no.getD "" }
  else .ok s0

/-- Institutional-email change step of `update_student`, with the analogous
409 pre-check. -/
def stuInstEmailUpdate (st : DbState) (student_id : String) (su : StudentUpdate)
    (s0 x : StudentRow) : Except AppErr StudentRow :=
  if pyTruthy su.institutional_email &&
      !(su.institutional_email.getD "" == s0.institutionalEmail) then
    match st.students.find?
        (fun s => s.institutionalEmail = su.institutional_email.getD "") with
    | some existing =>
      if existing.id ≠ student_id then
        .error ⟨"Institutional email " ++ su.institutional_email.getD "" ++
          " already exists", 409⟩
      else .ok { x with institutionalEmail := su.institutional_email.getD "" }
    | none => .ok { x with institutionalEmail := su.institutional_email.getD "" }
  else .ok x

/-- Linked-user update step of `update_student`: a truthy name or email
requires the linked user (404), with a 409 pre-check on a changed email
(ignoring a hit on the user itself). -/
def stuUserUpdate (st : DbState) (su : StudentUpdate) (s0 : StudentRow) :
    Except AppErr (Option UserRow) :=
  if pyTruthy su.name || pyTruthy su.email then
    match s0.userId.bind (fun uid => st.users.find? fun u => u.id = uid) with
    | none => .error ⟨"Associated user not found", 404⟩
    | some u =>
      let ua := if pyTruthy su.name then { u with name := su.name.getD "" } else u
      if pyTruthy su.email && !(su.email.getD "" == u.email) then
        match get_user_by_email st (su.email.getD "") with
        | some existing =>
          if existing.id ≠ u.id then
            .error ⟨"Email " ++ su.email.getD "" ++ " already exists", 409⟩
          else .ok (some { ua with email := su.email.getD "" })
        | none => .ok (some { ua with email := su.email.getD "" })
      else .ok (some ua)
  else .ok none

/-- Department change step of `update_student`: the department must exist
(404); the change is propagated to the linked user, re-fetched when the
previous step did not touch it. -/
def stuDeptUpdate (st : DbState) (su : StudentUpdate) (s0 x : StudentRow)
    (user1 : Option UserRow) : Except AppErr (StudentRow × Option UserRow) :=
  if pyTruthy su.department_id then
    if (st.departments.find? fun d => d.id = su.department_id.getD "").isNone then
      .error ⟨"Department with ID " ++ su.department_id.getD "" ++ " not found", 404⟩
    else
      let userBase := match user1 with
        | some u => some u
        | none => s0.userId.bind fun uid => st.users.find? fun u => u.id = uid
      .ok ({ x with departmentId := su.department_id.getD "" },
        userBase.map fun u => { u with departmentId := some (su.department_id.getD "") })
  else .ok (x, user1)

/-- Embedding of `update_student` on the embedded columns: `None` for a
missing row, then the steps above in source order, then the commit writes the
mutated student row (and the mutated linked user, when touched) back. Updates
to columns outside the embedded state are identity here. -/
def update_student (st : DbState) (student_id : String) (su : StudentUpdate) :
    Except AppErr (Option (DbState × StudentRow)) :=
  match st.students.find? (fun s => s.id = student_id) with
  | none => .ok none
  | some s0 =>
    match stuEnrollUpdate st student_id su s0 with
    | .error e => .error e
    | .ok s1 =>
      match stuInstEmailUpdate st student_id su s0 s1 with
      | .error e => .error e
      | .ok s2 =>
        match stuUserUpdate st su s0 with
        | .error e => .error e
        | .ok user1 =>
          match stuDeptUpdate st su s0 s2 user1 with
          | .error e => .error e
          | .ok su4 =>
            .ok (some ({ st with
              students := st.students.map fun x => if x.id = student_id then su4.1 else x
              users := match su4.2 with
                | some u2 => st.users.map fun x => if x.id = u2.id then u2 else x
                | none => st.users }, su4.1))

/-! ## Admin role endpoints (`app/api/admin.py`) -/

/-- Python `str.split(sep)` for a single-character separator, on character
lists: splitting an empty string yields one empty piece, and adjacent
separators yield empty pieces, exactly as in Python. -/
def splitOnChar (sep : Char) : List Char → List (List Char)
  | [] => [[]]
  | c :: t =>
    if c = sep then [] :: splitOnChar sep t
    else
      match splitOnChar sep t with
      | [] => [[c]]
      | h :: r => (c :: h) :: r

/-- Python `str.startswith(pre)`. -/
def pyStartsWith (s pre : String) : Bool :=
  pre.data.isPrefixOf s.data

/-- Numeric value of a nonempty all-digit character list, else `None`. -/
def digitsVal (cs : List Char) : Option Nat :=
  match cs with
  | [] => none
  | _ =>
    if cs.all Char.isDigit then
      some (cs.foldl (fun a c => a * 10 + (c.toNat - 48)) 0)
    else none

/-- Model of Python `int(s)`: surrounding whitespace is allowed, then an
optional sign and a nonempty digit string (`None` models `ValueError`; the
inputs fed to it here contain no digit-group underscores). -/
def pyInt (s : String) : Option Int :=
  match (pyStrip s).data with
  | '-' :: rest => (digitsVal rest).map fun n => -(n : Int)
  | '+' :: rest => (digitsVal rest).map fun n => (n : Int)
  | t => (digitsVal t).map fun n => (n : Int)

/-- Model of Python list indexing `l[i]`: negative indices count from the
end; `None` models `IndexError`. -/
def pyListGet {α : Type} (l : List α) (i : Int) : Option α :=
  let j := if i < 0 then (l.length : Int) + i else i
  if 0 ≤ j ∧ j < (l.length : Int) then l.get? j.toNat else none

/-- Result of the role-id resolution block shared by `update_role_endpoint`
and `delete_role_endpoint`: a role name to operate on, or the raised
`HTTPException(404, "Role with ID ... not found")`. -/
inductive RoleIdResolution where
  | roleName (name : String)
  | notFound (role_id : String)
deriving DecidableEq, Repr

/-- Embedding of the `role_` id-by-index fallback in `update_role_endpoint`
and `delete_role_endpoint`: for an id starting with `role_`, Python's
`int(role_id.split('_')[1])` is attempted — note it reads only the text
between the first and second underscore; on `ValueError`/`IndexError` the
whole id is used as a role name; a parsed index below the role count selects
`roles[index]` (Python indexing, so negative values count from the end, and a
negative overshoot is an `IndexError` caught by the same fallback); an index
at or past the count raises the 404 `HTTPException`. -/
def resolve_role_id (roles : List RoleRow) (role_id : String) : RoleIdResolution :=
  if pyStartsWith role_id "role_" then
    match (splitOnChar '_' role_id.data).get? 1 with
    | none => .roleName role_id
    | some part =>
      match pyInt (String.mk part) with
      | none => .roleName role_id
      | some i =>
        if i < (roles.length : Int) then
          match pyListGet roles i with
          | some r => .roleName r.name
          | none => .roleName role_id
        else .notFound role_id
  else .roleName role_id

/-- Permissions field of the PATCH `/admin/roles/{role_id}` request body: a
JSON list, a string, or absent (absent defaults to `[]`). -/
inductive PermissionsField where
  | list (ps : List String)
  | str (s : String)
  | absent
deriving DecidableEq, Repr

/-- Embedding of the permissions-string cleanup in `update_role_endpoint`:
drop curly braces, split on commas, strip each piece, keep the truthy ones. -/
def parsePermissionsString (s : String) : List String :=
  let cleaned := s.data.filter fun c => !(c == '\x7b') && !(c == '\x7d')
  (((splitOnChar ',' cleaned).map fun p => pyStrip (String.mk p)).filter
    fun p => p ≠ "")

/-- Embedding of `PATCH /admin/roles/role_id` (`update_role_endpoint`): role-id
resolution, permissions cleanup, service update, 404 on a missing role — all
inside a `try` whose `except Exception` rewraps every raised exception
(including the handler's own 404s) into an HTTP 400. -/
def update_role_endpoint (st : DbState) (role_id : String)
    (description : Option String) (permissions : PermissionsField) :
    ApiOutcome (DbState × RoleRow) :=
  let body : Except RaisedExc (DbState × RoleRow) :=
    match resolve_role_id (get_roles st) role_id with
    | .notFound rid => .error (.httpException 404 ("Role with ID " ++ rid ++ " not found"))
    | .roleName role_name =>
      let perms := match permissions with
        | .list ps => ps
        | .str s => parsePermissionsString s
        | .absent => []
      match update_role st role_name description (some perms) with
      | none => .error (.httpException 404 ("Role with name " ++ role_name ++ " not found"))
      | some r => .ok r
  match body with
  | .ok r => .success r
  | .error e => .failure 400 (strOfExc e)

/-- Embedding of `DELETE /admin/roles/role_id` (`delete_role_endpoint`):
role-id resolution, service delete, 404 on a missing role — all inside a
`try` whose `except Exception` rewraps every raised exception into an HTTP
400. -/
def delete_role_endpoint (st : DbState) (role_id : String) :
    ApiOutcome (DbState × String) :=
  let body : Except RaisedExc (DbState × String) :=
    match resolve_role_id (get_roles st) role_id with
    | .notFound rid => .error (.httpException 404 ("Role with ID " ++ rid ++ " not found"))
    | .roleName role_name =>
      let r := delete_role st role_name
      if r.1 then .ok (r.2, "Role deleted successfully")
      else .error (.httpException 404 ("Role with name " ++ role_name ++ " not found"))
  match body with
  | .ok r => .success r
  | .error e => .failure 400 (strOfExc e)

/-! ## Feedback analysis (`app/services/feedback.py`)

Scores are Python floats; the analysis is embedded over exact rationals
(reals for the square root), which matches the arithmetic structure of
`analyze_feedback_data` — mean, `sorted(scores)[len // 2]`, population
standard deviation, min and max. -/

/-- Row of the `feedback_analyses` table: the twelve per-question scores. -/
structure FeedbackAnalysisRow where
  id : String
  q1 : ℚ
  q2 : ℚ
  q3 : ℚ
  q4 : ℚ
  q5 : ℚ
  q6 : ℚ
  q7 : ℚ
  q8 : ℚ
  q9 : ℚ
  q10 : ℚ
  q11 : ℚ
  q12 : ℚ
deriving DecidableEq, Repr

/-- The `scores` list extracted by `analyze_feedback_data`, in source order. -/
def feedback_scores (r : FeedbackAnalysisRow) : List ℚ :=
  [r.q1, r.q2, r.q3, r.q4, r.q5, r.q6, r.q7, r.q8, r.q9, r.q10, r.q11, r.q12]

/-- Embedding of `mean_score = sum(scores) / len(scores)`. -/
def mean_score (scores : List ℚ) : ℚ :=
  scores.sum / (scores.length : ℚ)

/-- Python `sorted(scores)` (ascending). -/
def sortedScores (scores : List ℚ) : List ℚ :=
  List.insertionSort (· ≤ ·) scores

/-- Embedding of `median_score = sorted(scores)[len(scores) // 2]`: for the
twelve scores this is the element at index 6, the upper of the two middle
values. -/
def median_score (scores : List ℚ) : ℚ :=
  (sortedScores scores).getD (scores.length / 2) 0

/-- Numerator structure of the standard deviation:
`sum((x - mean_score) ** 2 for x in scores) / len(scores)`. -/
def variance_score (scores : List ℚ) : ℚ :=
  ((scores.map fun x => (x - mean_score scores) ^ 2).sum) / (scores.length : ℚ)

/-- Embedding of `std_dev = math.sqrt(variance)`. -/
noncomputable def std_dev_score (scores : List ℚ) : ℝ :=
  Real.sqrt ((variance_score scores : ℚ) : ℝ)

/-- Python `min(scores)` on a nonempty list (a fold of binary `min`). -/
def pyMin (scores : List ℚ) : ℚ :=
  match scores with
  | [] => 0
  | x :: xs => xs.foldl min x

/-- Python `max(scores)` on a nonempty list (a fold of binary `max`). -/
def pyMax (scores : List ℚ) : ℚ :=
  match scores with
  | [] => 0
  | x :: xs => xs.foldl max x

/-- Statistics dict built by `analyze_feedback_data`. -/
structure FeedbackStatistics where
  mean : ℚ
  median : ℚ
  stddev : ℝ
  minScore : ℚ
  maxScore : ℚ

/-- Statistics computed by `analyze_feedback_data` over a score list. -/
noncomputable def feedbackStatistics (scores : List ℚ) : FeedbackStatistics :=
  { mean := mean_score scores
    median := median_score scores
    stddev := std_dev_score scores
    minScore := pyMin scores
    maxScore := pyMax scores }

/-- Embedding of `analyze_feedback_data`: 404 for a missing record, else the
statistics over the record's twelve scores. -/
noncomputable def analyze_feedback_data (db : List FeedbackAnalysisRow)
    (feedback_id : String) : Except AppErr FeedbackStatistics :=
  match db.find? (fun r => r.id = feedback_id) with
  | none => .error ⟨"Feedback record not found", 404⟩
  | some r => .ok (feedbackStatistics (feedback_scores r))

/-- Median in the usual statistical sense, written from the claim's words
("the median of the 12 scores"): the average of the two middle values of the
sorted list when the count is even, the middle value when odd. Used only to
compare the code's `median_score` against the specification. -/
def spec_median (scores : List ℚ) : ℚ :=
  let s := sortedScores scores
  if scores.length % 2 = 1 then s.getD (scores.length / 2) 0
  else (s.getD (scores.length / 2 - 1) 0 + s.getD (scores.length / 2) 0) / 2

/-- Pagination page count reported by the list endpoints
(`app/api/admin.py`, `app/api/departments.py`, the faculty router):
`(total + limit - 1) // limit`. -/
def total_pages (total limit : Nat) : Nat :=
  (total + limit - 1) / limit

/-- Empty database. -/
def emptyDb : DbState := ⟨[], [], [], [], [], []⟩

/-! ## Department CSV export/import (`app/services/department.py`)

The `csv` module's `DictWriter`/`DictReader` pair transports records
faithfully (quoting round-trips field text by construction), so the CSV
layer is embedded at the record level: export produces a list of rows with
the five named columns and import consumes such rows. Dates go through
CPython's `strftime('%Y-%m-%d')` (zero-padded, fixed width for years up to
9999) and the `strptime` cascade; `strptime` is embedded on that fixed-width
shape, including its calendar validation. -/

/-- Digit character for a value below ten. -/
def digitChar (n : Nat) : Char := Char.ofNat (48 + n)

/-- Numeric value of a digit character. -/
def digitVal (c : Char) : Nat := c.toNat - 48

/-- Gregorian leap-year rule, as `datetime` validates dates. -/
def isLeapYear (y : Nat) : Bool :=
  y % 4 = 0 && (!(y % 100 = 0) || y % 400 = 0)

/-- Days in a month, as `datetime` validates dates. -/
def daysInMonth (y m : Nat) : Nat :=
  if m = 2 then (if isLeapYear y then 29 else 28)
  else if m = 4 ∨ m = 6 ∨ m = 9 ∨ m = 11 then 30
  else 31

/-- CPython `strftime('%Y-%m-%d')`: zero-padded year (width 4), month and
day (width 2). -/
def strftimeYMD (dt : PyDate) : String :=
  String.mk [digitChar (dt.year / 1000), digitChar (dt.year / 100 % 10),
    digitChar (dt.year / 10 % 10), digitChar (dt.year % 10), '-',
    digitChar (dt.month / 10), digitChar (dt.month % 10), '-',
    digitChar (dt.day / 10), digitChar (dt.day % 10)]

/-- CPython `strptime(s, '%Y-%m-%d')` on the fixed-width shape `strftime`
emits: four digits, dash, two digits, dash, two digits, with month and day
validated against the calendar; the parsed datetime has a zero time-of-day. -/
def strptimeYMD (s : String) : Option PyDate :=
  match s.data with
  | [y1, y2, y3, y4, s1, m1, m2, s2, d1, d2] =>
    if (s1 = '-' ∧ s2 = '-') ∧ y1.isDigit ∧ y2.isDigit ∧ y3.isDigit ∧ y4.isDigit ∧
        m1.isDigit ∧ m2.isDigit ∧ d1.isDigit ∧ d2.isDigit then
      let y := ((digitVal y1 * 10 + digitVal y2) * 10 + digitVal y3) * 10 + digitVal y4
      let m := digitVal m1 * 10 + digitVal m2
      let d := digitVal d1 * 10 + digitVal d2
      if (1 ≤ m ∧ m ≤ 12) ∧ 1 ≤ d ∧ d ≤ daysInMonth y m then
        some ⟨y, m, d, 0, 0, 0⟩
      else none
    else none
  | _ => none

/-- CPython `strptime(s, '%d/%m/%Y')` on the fixed-width shape (the import's
second fallback format). -/
def strptimeDMY (s : String) : Option PyDate :=
  match s.data with
  | [d1, d2, s1, m1, m2, s2, y1, y2, y3, y4] =>
    if (s1 = '/' ∧ s2 = '/') ∧ y1.isDigit ∧ y2.isDigit ∧ y3.isDigit ∧ y4.isDigit ∧
        m1.isDigit ∧ m2.isDigit ∧ d1.isDigit ∧ d2.isDigit then
      let y := ((digitVal y1 * 10 + digitVal y2) * 10 + digitVal y3) * 10 + digitVal y4
      let m := digitVal m1 * 10 + digitVal m2
      let d := digitVal d1 * 10 + digitVal d2
      if (1 ≤ m ∧ m ≤ 12) ∧ 1 ≤ d ∧ d ≤ daysInMonth y m then
        some ⟨y, m, d, 0, 0, 0⟩
      else none
    else none
  | _ => none

/-- CPython `strptime(s, '%m/%d/%Y')` on the fixed-width shape (the import's
third fallback format). -/
def strptimeMDY (s : String) : Option PyDate :=
  match s.data with
  | [m1, m2, s1, d1, d2, s2, y1, y2, y3, y4] =>
    if (s1 = '/' ∧ s2 = '/') ∧ y1.isDigit ∧ y2.isDigit ∧ y3.isDigit ∧ y4.isDigit ∧
        m1.isDigit ∧ m2.isDigit ∧ d1.isDigit ∧ d2.isDigit then
      let y := ((digitVal y1 * 10 + digitVal y2) * 10 + digitVal y3) * 10 + digitVal y4
      let m := digitVal m1 * 10 + digitVal m2
      let d := digitVal d1 * 10 + digitVal d2
      if (1 ≤ m ∧ m ≤ 12) ∧ 1 ≤ d ∧ d ≤ daysInMonth y m then
        some ⟨y, m, d, 0, 0, 0⟩
      else none
    else none
  | _ => none

/-- The import's date-format cascade: `%Y-%m-%d`, then `%d/%m/%Y`, then
`%m/%d/%Y`. -/
def parseDateCascade (s : String) : Option PyDate :=
  match strptimeYMD s with
  | some dt => some dt
  | none =>
    match strptimeDMY s with
    | some dt => some dt
    | none => strptimeMDY s

/-- A CSV record with the columns `export_departments_to_csv` writes. -/
structure DeptCsvRow where
  Name : String
  Code : String
  Description : String
  EstablishedDate : String
  IsActive : String
deriving DecidableEq, Repr

/-- The CSV record `export_departments_to_csv` writes for one department:
date formatted `%Y-%m-%d` (empty when absent), active flag as `Yes`/`No`. -/
def deptCsvRowOf (d : Department) : DeptCsvRow :=
  ⟨d.name, d.code, d.description,
    match d.establishedDate with
    | some dt => strftimeYMD dt
    | none => "",
    if d.isActive then "Yes" else "No"⟩

/-- Embedding of `export_departments_to_csv` at the record level: one row per
department. -/
def export_departments_to_csv (st : DbState) : List DeptCsvRow :=
  st.departments.map deptCsvRowOf

/-- Embedding of one row of `import_departments_from_csv`: required-field
checks, strip/upper normalisation, the date cascade, the truthy-token active
flag, then update-by-code or insert (with `newId` the generated UUID). -/
def importDeptRow (st : DbState) (row : DeptCsvRow) (newId : String) :
    Except String DbState :=
  if row.Name = "" then .error "Missing required field: Name"
  else if row.Code = "" then .error "Missing required field: Code"
  else if row.Description = "" then .error "Missing required field: Description"
  else if row.EstablishedDate = "" then .error "Missing required field: EstablishedDate"
  else
    let name := pyStrip row.Name
    let code := pyUpper (pyStrip row.Code)
    let description := pyStrip row.Description
    match parseDateCascade (pyStrip row.EstablishedDate) with
    | none => .error ("Invalid date format: " ++ pyStrip row.EstablishedDate ++
        ". Use YYYY-MM-DD.")
    | some established_date =>
      let is_active :=
        ["true", "1", "yes", "y"].contains (pyLower (pyStrip row.IsActive))
      match get_department_by_code st code with
      | some _ =>
        .ok { st with departments := st.departments.map fun x =>
          if x.code = code then
            { x with name := name, description := description,
                     establishedDate := some established_date, isActive := is_active }
          else x }
      | none =>
        .ok { st with departments := st.departments ++
          [⟨newId, name, code, description, none, some established_date, is_active⟩] }

/-- One iteration of the import's row loop on the accumulator
(state, successful count, failed count, row index). -/
def importDeptStep (idGen : Nat → String) (acc : DbState × Nat × Nat × Nat)
    (row : DeptCsvRow) : DbState × Nat × Nat × Nat :=
  match importDeptRow acc.1 row (idGen acc.2.2.2) with
  | .ok st' => (st', acc.2.1 + 1, acc.2.2.1, acc.2.2.2 + 1)
  | .error _ => (acc.1, acc.2.1, acc.2.2.1 + 1, acc.2.2.2 + 1)

/-- Embedding of `import_departments_from_csv`: process the rows in order,
counting successes and failures; `idGen` stands for the UUID generator. -/
def import_departments_from_csv (st : DbState) (rows : List DeptCsvRow)
    (idGen : Nat → String) : DbState × Nat × Nat :=
  let r := rows.foldl (importDeptStep idGen) (st, 0, 0, 0)
  (r.1, r.2.1, r.2.2.1)

/-- Hypotheses of the department CSV round trip: pairwise-distinct codes (the
schema's unique constraint), whitespace-normalised non-empty name, code and
description, upper-case code, and a present, calendar-valid established date
with a zero time-of-day. -/
def DeptRoundTripOK (st : DbState) : Prop :=
  (st.departments.map fun z => z.code).Nodup ∧
  ∀ dep ∈ st.departments,
    pyStrip dep.name = dep.name ∧ dep.name ≠ "" ∧
    pyStrip dep.code = dep.code ∧ pyUpper dep.code = dep.code ∧ dep.code ≠ "" ∧
    pyStrip dep.description = dep.description ∧ dep.description ≠ "" ∧
    ∃ dt, dep.establishedDate = some dt ∧
      dt.hour = 0 ∧ dt.minute = 0 ∧ dt.second = 0 ∧
      dt.year ≤ 9999 ∧ 1 ≤ dt.month ∧ dt.month ≤ 12 ∧ 1 ≤ dt.day ∧
      dt.day ≤ daysInMonth dt.year dt.month

/-! ## Declared schema constraints (`app/models/*.py`)

The `Column(...)` declarations carry the uniqueness flags the claims cite. -/

/-- A SQLAlchemy column declaration's flags. -/
structure ColumnSpec where
  table : String
  column : String
  unique : Bool
  nullable : Bool
deriving DecidableEq, Repr

/-- `User.email = Column(String(100), nullable=False, unique=True, index=True)`. -/
def User_email_column : ColumnSpec := ⟨"users", "email", true, false⟩

/-- `Student.enrollment_no = Column(String(20), nullable=False, unique=True, index=True)`. -/
def Student_enrollment_no_column : ColumnSpec := ⟨"students", "enrollment_no", true, false⟩

/-- `Department.code = Column(String(10), nullable=False, unique=True, index=True)`. -/
def Department_code_column : ColumnSpec := ⟨"departments", "code", true, false⟩

/-- The uniqueness invariants the claims name: pairwise-distinct user emails,
student enrollment numbers and department codes. -/
def UniqInv (st : DbState) : Prop :=
  (st.users.map fun u => u.email).Nodup ∧
  (st.students.map fun s => s.enrollmentNo).Nodup ∧
  (st.departments.map fun d => d.code).Nodup

/-- Primary-key uniqueness (ids), which the schema's primary keys guarantee
and the update proofs rely on. -/
def PkInv (st : DbState) : Prop :=
  (st.users.map fun u => u.id).Nodup ∧
  (st.students.map fun s => s.id).Nodup ∧
  (st.departments.map fun d => d.id).Nodup

end Gpp

namespace Gpp

/-- C4: the global exception handler classifies every escaping exception by
class: an AppError yields its carried status code and message; a
ValidationError yields 422; an IntegrityError yields 409 even though it is
also an instance of SQLAlchemyError; any other SQLAlchemyError yields 500; a
JWTError yields 401 with a WWW-Authenticate Bearer header; any other
exception yields 500; and every envelope carries status "error". -/
theorem C4_error_handler_classification :
    (∀ e : PyExc, (error_handler e).status = "error") ∧
    (∀ msg sc, error_handler (.appError msg sc) = ⟨sc, "error", msg, none⟩) ∧
    error_handler .validationError = ⟨422, "error", "Validation error", none⟩ ∧
    (error_handler .integrityError = ⟨409, "error", "Database integrity error", none⟩ ∧
      isSQLAlchemyError .integrityError = true ∧
      (error_handler .integrityError).statusCode ≠ 500) ∧
    error_handler .otherSQLAlchemyError = ⟨500, "error", "Database error", none⟩ ∧
    error_handler .jwtError =
      ⟨401, "error", "Invalid authentication credentials", some "Bearer"⟩ ∧
    error_handler .otherException = ⟨500, "error", "Internal server error", none⟩ := by
  refine ⟨?_, ?_, by decide, ⟨by decide, by decide, by decide⟩, by decide, by decide, by decide⟩
  · intro e
    cases e <;> rfl
  · intro msg sc
    rfl

/-- C1: a `RoleChecker` dependency rejects with 403 exactly the callers whose
selected role fails `check_role`; but of the admin role-management endpoints
only `GET /admin/roles/role_name` declares `require_admin` — the six endpoints
the claim lists declare no role dependency at all, so a caller holding only
the student role (who fails `check_role` for admin) is not rejected by any of
them, contradicting the claim and the source comment "Role management
endpoints - all require admin role". -/
theorem C1_admin_role_endpoints_not_admin_gated :
    (∀ (caller : AuthUser) (rs : List String),
      RoleChecker rs caller = .error 403 ↔ check_role caller rs = false) ∧
    check_role studentCaller require_admin = false ∧
    dependenciesReject403 get_all_roles_deps studentCaller = false ∧
    dependenciesReject403 add_role_deps studentCaller = false ∧
    dependenciesReject403 update_role_endpoint_deps studentCaller = false ∧
    dependenciesReject403 delete_role_endpoint_deps studentCaller = false ∧
    dependenciesReject403 export_roles_endpoint_deps studentCaller = false ∧
    dependenciesReject403 import_roles_endpoint_deps studentCaller = false ∧
    dependenciesReject403 get_role_by_name_deps studentCaller = true := by
  refine ⟨?_, by decide, by decide, by decide, by decide, by decide, by decide,
    by decide, by decide⟩
  intro caller rs
  cases hcr : check_role caller rs <;> simp [RoleChecker, hcr]

/-- C9: when the JWT verifies and names an existing user, a truthy
`selected_role` outside the user's roles is silently replaced by the user's
first role name (or `None` when the user has none); an absent `selected_role`,
or one among the user's roles, is passed through unchanged. The request is
never rejected on this path. -/
theorem C9_selected_role_fixup :
    ∀ (users : List AuthUser) (p : TokenPayload) (uid : String) (u : AuthUser),
      p.id = some uid → get_user users uid = some u →
      ((∀ s, p.selected_role = some s → s ≠ "" → u.roles.contains s = false →
          get_current_user users (some p) = .ok { u with selectedRole := u.roles.head? }) ∧
       (p.selected_role = none →
          get_current_user users (some p) = .ok { u with selectedRole := none }) ∧
       (∀ s, p.selected_role = some s → u.roles.contains s = true →
          get_current_user users (some p) = .ok { u with selectedRole := some s })) := by
  intro users p uid u hid hu
  refine ⟨?_, ?_, ?_⟩
  · intro s hs hne hnc
    simp only [get_current_user, hid, hu, fixSelectedRole, hs, hne, hnc]
    simp [hne]
  · intro hs
    simp [get_current_user, hid, hu, fixSelectedRole, hs]
  · intro s hs hc
    simp only [get_current_user, hid, hu, fixSelectedRole, hs, hc]
    simp

/-- Witness for C9: a token for user `u1` selecting the role "principal",
which `u1` does not hold, yields `u1` with selected role silently replaced by
the first held role "student". -/
theorem C9_selected_role_fixup_witness :
    get_current_user [⟨"u1", ["student", "admin"], none⟩]
        (some ⟨some "u1", some "principal"⟩) =
      .ok ⟨"u1", ["student", "admin"], some "student"⟩ :=
  (C9_selected_role_fixup _ _ "u1" ⟨"u1", ["student", "admin"], none⟩ rfl
    (by decide)).1 "principal" rfl (by decide) (by decide)

/-- C2: the department service does return `None` for an unknown id and the
handler raises `HTTPException(404)`, but the handler's own `except Exception`
catch-all rewraps that 404 into an HTTP 400 (whose detail still reads
"404: Department not found"), so PATCH /departments with an unknown id
answers 400, not the claimed 404. The faculty PATCH, whose handler has no
catch-all, does answer 404. -/
theorem C2_department_patch_unknown_id_gives_400 :
    update_department emptyDb "missing-id" ⟨none, none, none, none, none, none⟩ =
      .ok none ∧
    update_department_by_id emptyDb "missing-id" ⟨none, none, none, none, none, none⟩ =
      .failure 400 "404: Department not found" ∧
    (∀ fd : FacultyUpdate,
      update_faculty_by_id emptyDb "missing-id" fd = .failure 404 "Faculty not found") := by
  refine ⟨rfl, by decide, ?_⟩
  intro fd
  rfl

/-- C3: `delete_department` does report `False` for a missing row, but the
DELETE /departments handler ignores that boolean and returns the success
envelope anyway; DELETE /admin/roles with an unknown role name does answer
with an error status (a 400, carrying the rewrapped 404 detail). -/
theorem C3_department_delete_missing_reports_success :
    (delete_department emptyDb "missing-id").1 = false ∧
    delete_department_by_id emptyDb "missing-id" =
      .success (emptyDb, "Department deleted successfully") ∧
    (delete_role emptyDb "ghost").1 = false ∧
    delete_role_endpoint emptyDb "ghost" =
      .failure 400 "404: Role with name ghost not found" := by
  exact ⟨rfl, rfl, rfl, by decide⟩

/-- Reported department total: the count of the filtered table, taken before
sorting and pagination. -/
theorem get_departments_total (st : DbState) (page limit : Nat)
    (search : Option String) (sortKey : Department → String) (sort_order : String) :
    (get_departments st page limit search sortKey sort_order).2 =
      (if pyTruthy search
        then st.departments.countP (departmentMatches (search.getD ""))
        else st.departments.length) := by
  by_cases h : pyTruthy search = true
  · simp [get_departments, h, List.countP_eq_length_filter]
  · simp [get_departments, h]

/-- Reported user total: the length of the filter chain's result, taken
before sorting and pagination. -/
theorem get_users_total (st : DbState) (skip limit : Nat)
    (search role department_id : Option String)
    (sortKey : UserRow → String) (sort_order : String) :
    (get_users st skip limit search role department_id sortKey sort_order).2 =
      (usersAfterFilters st search role department_id).length := by
  simp [get_users]

/-- Every department returned by a page of `get_departments` belongs to the
filtered table. -/
theorem get_departments_mem {st : DbState} {page limit : Nat}
    {search : Option String} {sortKey : Department → String} {sort_order : String}
    {d : Department}
    (hd : d ∈ (get_departments st page limit search sortKey sort_order).1) :
    d ∈ (if pyTruthy search
      then st.departments.filter (departmentMatches (search.getD ""))
      else st.departments) := by
  simp only [get_departments] at hd
  have hd1 := List.drop_subset _ _ (List.take_subset _ _ hd)
  by_cases hdo : pyLower sort_order = "desc"
  · rw [if_pos hdo] at hd1
    exact ((List.perm_insertionSort _ _).mem_iff).1 hd1
  · rw [if_neg hdo] at hd1
    exact ((List.perm_insertionSort _ _).mem_iff).1 hd1

/-- Ceiling formula for the reported page count: for a positive limit,
`(total + limit - 1) / limit` is the ceiling of `total / limit`. -/
theorem total_pages_eq_ceil (total limit : Nat) (h : 1 ≤ limit) :
    total_pages total limit = ⌈(total : ℚ) / (limit : ℚ)⌉₊ := by
  rcases Nat.eq_zero_or_pos total with h0 | hpos
  · subst h0
    have h1 : total_pages 0 limit = 0 := Nat.div_eq_of_lt (by omega)
    rw [h1]
    simp
  · have hl : (0 : ℚ) < (limit : ℚ) := by exact_mod_cast h
    have hdm := Nat.div_add_mod (total + limit - 1) limit
    have hmod : (total + limit - 1) % limit < limit := Nat.mod_lt _ (by omega)
    have hq1 : 1 ≤ (total + limit - 1) / limit :=
      (Nat.le_div_iff_mul_le (by omega : 0 < limit)).2 (by omega)
    unfold total_pages
    generalize hq : (total + limit - 1) / limit = q at hdm hq1
    generalize hr : (total + limit - 1) % limit = r at hdm hmod
    have hmul := Nat.mul_comm limit q
    generalize hm : limit * q = m at hdm hmul
    have htk : total ≤ q * limit := by
      rw [← hmul]
      omega
    have hlt : (q - 1) * limit < total := by
      have h1 : (q - 1) * limit = q * limit - 1 * limit := Nat.sub_mul q 1 limit
      rw [h1, one_mul, ← hmul]
      omega
    rw [eq_comm, Nat.ceil_eq_iff (by omega : q ≠ 0)]
    constructor
    · rw [lt_div_iff₀ hl]
      exact_mod_cast hlt
    · rw [div_le_iff₀ hl]
      exact_mod_cast htk

/-- C7: the pagination total reported by `get_departments` and `get_users`
equals the number of rows matching the filters, counted before offset and
limit, hence does not depend on page/skip, limit or sort; every department on
a returned page does match the search; and the reported number of pages
`(total + limit - 1) // limit` equals the ceiling of `total / limit` for
every positive limit. -/
theorem C7_pagination_totals_and_pages :
    (∀ st page limit search sortKey sort_order,
      (get_departments st page limit search sortKey sort_order).2 =
        (if pyTruthy search
          then st.departments.countP (departmentMatches (search.getD ""))
          else st.departments.length)) ∧
    (∀ st p₁ l₁ k₁ o₁ p₂ l₂ k₂ o₂ search,
      (get_departments st p₁ l₁ search k₁ o₁).2 =
        (get_departments st p₂ l₂ search k₂ o₂).2) ∧
    (∀ st page limit s sortKey sort_order d,
      d ∈ (get_departments st page limit (some s) sortKey sort_order).1 →
        s ≠ "" → departmentMatches s d = true) ∧
    (∀ st s₁ l₁ k₁ o₁ s₂ l₂ k₂ o₂ search role department_id,
      (get_users st s₁ l₁ search role department_id k₁ o₁).2 =
        (get_users st s₂ l₂ search role department_id k₂ o₂).2) ∧
    (∀ total limit, 1 ≤ limit →
      total_pages total limit = ⌈(total : ℚ) / (limit : ℚ)⌉₊) := by
  refine ⟨get_departments_total, ?_, ?_, ?_, total_pages_eq_ceil⟩
  · intro st p₁ l₁ k₁ o₁ p₂ l₂ k₂ o₂ search
    rw [get_departments_total, get_departments_total]
  · intro st page limit s sortKey sort_order d hd hs
    have h := get_departments_mem hd
    have ht : pyTruthy (some s) = true := by
      simp [pyTruthy, hs]
    rw [if_pos ht] at h
    exact List.of_mem_filter h
  · intro st s₁ l₁ k₁ o₁ s₂ l₂ k₂ o₂ search role department_id
    rw [get_users_total, get_users_total]

/-- Witness for C7: five rows under limit 2 give three pages, matching the
ceiling of 5/2. -/
theorem C7_pagination_totals_and_pages_witness :
    total_pages 5 2 = ⌈(5 : ℚ) / (2 : ℚ)⌉₊ ∧ total_pages 5 2 = 3 :=
  ⟨by
    have h := C7_pagination_totals_and_pages.2.2.2.2 5 2 (by decide)
    simpa using h,
   rfl⟩

/-- Python indexing at a nonnegative in-range index. -/
theorem pyListGet_nonneg {α : Type} (l : List α) (i : Int) (h0 : 0 ≤ i)
    (h : i.toNat < l.length) : pyListGet l i = some (l.get ⟨i.toNat, h⟩) := by
  simp only [pyListGet]
  rw [if_neg (by omega : ¬ i < 0), if_pos ⟨h0, by omega⟩]
  exact List.get?_eq_get h

/-- Python indexing at a negative index that stays in range counts from the
end of the list. -/
theorem pyListGet_neg {α : Type} (l : List α) (i : Int) (h0 : i < 0)
    (h1 : 0 ≤ (l.length : Int) + i) :
    pyListGet l i = l.get? ((l.length : Int) + i).toNat := by
  simp only [pyListGet]
  rw [if_pos h0, if_pos ⟨h1, by omega⟩]

/-- Python indexing at a negative index that overshoots the front raises
`IndexError`. -/
theorem pyListGet_neg_overflow {α : Type} (l : List α) (i : Int) (h0 : i < 0)
    (h1 : (l.length : Int) + i < 0) : pyListGet l i = none := by
  simp only [pyListGet]
  rw [if_pos h0, if_neg (by omega)]

/-- C8 counterexample: for `role_1_x` the suffix after `role_` is `1_x`, which
is not a parseable integer, so by the claim the whole id would be used as a
role name; but the code parses only `split('_')[1] = "1"` and resolves the
role at index 1 instead. -/
theorem C8_suffix_parsing_counterexample :
    String.mk ("role_1_x".data.drop 5) = "1_x" ∧
    pyInt "1_x" = none ∧
    resolve_role_id [⟨"admin", "", []⟩, ⟨"student", "", []⟩] "role_1_x" =
      .roleName "student" ∧
    resolve_role_id [⟨"admin", "", []⟩, ⟨"student", "", []⟩] "role_1_x" ≠
      .roleName "role_1_x" := by
  refine ⟨by decide, by decide, by decide, by decide⟩

/-- C8 amended: in PATCH/DELETE /admin/roles/role_id, an id of the form
`role_...` is resolved by parsing the text between the first and second
underscore (`role_id.split('_')[1]`), not the whole suffix: a parsed index
`i` with `0 ≤ i <` count selects the role at position `i` of `get_roles`;
`i ≥` count raises the `Role with ID ... not found` exception, which both
endpoints' catch-all turns into an HTTP 400 whose detail carries the 404
message; a negative `i` follows Python indexing (position count + i, or the
whole-id fallback when it overshoots); an unparseable field falls back to the
whole id as a role name, as does any id not starting with `role_`. -/
theorem C8_role_id_resolution_amended (roles : List RoleRow) (role_id : String) :
    (¬ pyStartsWith role_id "role_" = true →
      resolve_role_id roles role_id = .roleName role_id) ∧
    (∀ part, pyStartsWith role_id "role_" = true →
      (splitOnChar '_' role_id.data).get? 1 = some part →
      ((pyInt (String.mk part) = none →
          resolve_role_id roles role_id = .roleName role_id) ∧
       (∀ i : Int, pyInt (String.mk part) = some i →
         ((0 ≤ i → ∀ h : i.toNat < roles.length,
            resolve_role_id roles role_id = .roleName (roles.get ⟨i.toNat, h⟩).name) ∧
          ((roles.length : Int) ≤ i →
            resolve_role_id roles role_id = .notFound role_id) ∧
          (i < 0 → 0 ≤ (roles.length : Int) + i →
            ∀ r, roles.get? ((roles.length : Int) + i).toNat = some r →
              resolve_role_id roles role_id = .roleName r.name) ∧
          (i < 0 → (roles.length : Int) + i < 0 →
            resolve_role_id roles role_id = .roleName role_id))))) ∧
    (∀ st rid, resolve_role_id (get_roles st) rid = .notFound rid →
      delete_role_endpoint st rid =
        .failure 400 (strOfExc (.httpException 404 ("Role with ID " ++ rid ++ " not found")))) ∧
    (∀ st rid dsc perms, resolve_role_id (get_roles st) rid = .notFound rid →
      update_role_endpoint st rid dsc perms =
        .failure 400 (strOfExc (.httpException 404 ("Role with ID " ++ rid ++ " not found")))) := by
  refine ⟨?_, ?_, ?_, ?_⟩
  · intro hns
    simp [resolve_role_id, hns]
  · intro part hs hpart
    rw [List.get?_eq_getElem?] at hpart
    refine ⟨?_, ?_⟩
    · intro hnone
      simp [resolve_role_id, hs, hpart, hnone]
    · intro i hi
      refine ⟨?_, ?_, ?_, ?_⟩
      · intro h0 h
        simp [resolve_role_id, hs, hpart, hi, pyListGet_nonneg roles i h0 h,
          (by omega : i < (roles.length : Int))]
      · intro hge
        simp [resolve_role_id, hs, hpart, hi, (by omega : ¬ i < (roles.length : Int))]
        intro hlt
        exact absurd hlt (by omega)
      · intro h0 h1 r hr
        have hg := pyListGet_neg roles i h0 h1
        rw [hr] at hg
        simp [resolve_role_id, hs, hpart, hi, hg, (by omega : i < (roles.length : Int))]
      · intro h0 h1
        have hg := pyListGet_neg_overflow roles i h0 h1
        simp [resolve_role_id, hs, hpart, hi, hg, (by omega : i < (roles.length : Int))]
  · intro st rid hres
    simp [delete_role_endpoint, hres]
  · intro st rid dsc perms hres
    simp [update_role_endpoint, hres]

/-- Witness for C8: an id without the `role_` shape is used directly as a
role name, and a parsed in-range index selects the role at that position. -/
theorem C8_role_id_resolution_amended_witness :
    resolve_role_id [] "student" = .roleName "student" ∧
    resolve_role_id [⟨"admin", "", []⟩, ⟨"student", "", []⟩] "role_1" =
      .roleName "student" :=
  ⟨(C8_role_id_resolution_amended [] "student").1 (by decide),
   by
    have h := ((((C8_role_id_resolution_amended
      [⟨"admin", "", []⟩, ⟨"student", "", []⟩] "role_1").2.1 "1".data
      (by decide) (by decide)).2 1 (by decide)).1 (by decide) (by decide))
    simpa using h⟩

/-- Folding `min` never exceeds the seed. -/
theorem foldl_min_le_init (xs : List ℚ) (a : ℚ) : xs.foldl min a ≤ a := by
  induction xs generalizing a with
  | nil => simp
  | cons x t ih => exact le_trans (ih (min a x)) (min_le_left a x)

/-- Folding `min` never exceeds any list element. -/
theorem foldl_min_le_mem (xs : List ℚ) (a x : ℚ) (hx : x ∈ xs) :
    xs.foldl min a ≤ x := by
  induction xs generalizing a with
  | nil => cases hx
  | cons y t ih =>
    rcases List.mem_cons.1 hx with rfl | hx2
    · exact le_trans (foldl_min_le_init t (min a x)) (min_le_right a x)
    · exact ih (min a y) hx2

/-- Folding `min` yields the seed or a list element. -/
theorem foldl_min_mem (xs : List ℚ) (a : ℚ) :
    xs.foldl min a = a ∨ xs.foldl min a ∈ xs := by
  induction xs generalizing a with
  | nil => exact Or.inl rfl
  | cons y t ih =>
    rcases ih (min a y) with h | h
    · rcases min_choice a y with hm | hm
      · exact Or.inl (by rw [List.foldl_cons, h, hm])
      · exact Or.inr (by rw [List.foldl_cons, h, hm]; exact List.mem_cons_self y t)
    · exact Or.inr (List.mem_cons_of_mem y h)

/-- Folding `max` is at least the seed. -/
theorem foldl_max_ge_init (xs : List ℚ) (a : ℚ) : a ≤ xs.foldl max a := by
  induction xs generalizing a with
  | nil => simp
  | cons x t ih => exact le_trans (le_max_left a x) (ih (max a x))

/-- Folding `max` is at least every list element. -/
theorem foldl_max_ge_mem (xs : List ℚ) (a x : ℚ) (hx : x ∈ xs) :
    x ≤ xs.foldl max a := by
  induction xs generalizing a with
  | nil => cases hx
  | cons y t ih =>
    rcases List.mem_cons.1 hx with rfl | hx2
    · exact le_trans (le_max_right a x) (foldl_max_ge_init t (max a x))
    · exact ih (max a y) hx2

/-- Folding `max` yields the seed or a list element. -/
theorem foldl_max_mem (xs : List ℚ) (a : ℚ) :
    xs.foldl max a = a ∨ xs.foldl max a ∈ xs := by
  induction xs generalizing a with
  | nil => exact Or.inl rfl
  | cons y t ih =>
    rcases ih (max a y) with h | h
    · rcases max_choice a y with hm | hm
      · exact Or.inl (by rw [List.foldl_cons, h, hm])
      · exact Or.inr (by rw [List.foldl_cons, h, hm]; exact List.mem_cons_self y t)
    · exact Or.inr (List.mem_cons_of_mem y h)

/-- In a sorted list, at least `j + 1` elements are at most the element at
index `j`. -/
theorem sorted_count_le (s : List ℚ) (hs : List.Sorted (· ≤ ·) s) (j : Nat)
    (hj : j < s.length) :
    j + 1 ≤ (s.filter fun x => x ≤ s[j]).length := by
  have hlen : (s.take (j + 1)).length = j + 1 := by
    rw [List.length_take]
    omega
  have hall : ∀ x ∈ s.take (j + 1), decide (x ≤ s[j]) = true := by
    intro x hx
    rw [List.mem_iff_getElem] at hx
    obtain ⟨k, hk, rfl⟩ := hx
    rw [List.getElem_take]
    have hk1 : k < j + 1 := by omega
    have hk2 : k < s.length := by omega
    have h := hs.rel_get_of_le (a := ⟨k, hk2⟩) (b := ⟨j, hj⟩) (Fin.mk_le_mk.2 (by omega))
    simpa [List.get_eq_getElem] using h
  have e1 : ((s.take (j + 1)).filter fun x => x ≤ s[j]) = s.take (j + 1) :=
    List.filter_eq_self.2 hall
  have e2 := List.Sublist.length_le
    (List.Sublist.filter (fun x => decide (x ≤ s[j])) (List.take_sublist (j + 1) s))
  rw [e1, hlen] at e2
  exact e2

/-- In a sorted list, at least `length - j` elements are at least the element
at index `j`. -/
theorem sorted_count_ge (s : List ℚ) (hs : List.Sorted (· ≤ ·) s) (j : Nat)
    (hj : j < s.length) :
    s.length - j ≤ (s.filter fun x => s[j] ≤ x).length := by
  have hlen : (s.drop j).length = s.length - j := List.length_drop j s
  have hall : ∀ x ∈ s.drop j, decide (s[j] ≤ x) = true := by
    intro x hx
    rw [List.mem_iff_getElem] at hx
    obtain ⟨k, hk, rfl⟩ := hx
    rw [List.getElem_drop]
    have hk2 : j + k < s.length := by
      rw [hlen] at hk
      omega
    have h := hs.rel_get_of_le (a := ⟨j, hj⟩) (b := ⟨j + k, hk2⟩) (Fin.mk_le_mk.2 (by omega))
    simpa [List.get_eq_getElem] using h
  have e1 : ((s.drop j).filter fun x => s[j] ≤ x) = s.drop j :=
    List.filter_eq_self.2 hall
  have e2 := List.Sublist.length_le
    (List.Sublist.filter (fun x => decide (s[j] ≤ x)) (List.drop_sublist j s))
  rw [e1, hlen] at e2
  exact e2

/-- C5 counterexample: with scores `[1,1,1,1,1,1,2,2,2,2,2,2]` the code's
`sorted(scores)[12 // 2]` reports 2, while the median of the twelve scores is
3/2, so the claimed "median equal to the median of the 12 scores" fails. -/
theorem C5_median_counterexample :
    median_score [1, 1, 1, 1, 1, 1, 2, 2, 2, 2, 2, 2] = 2 ∧
    spec_median [1, 1, 1, 1, 1, 1, 2, 2, 2, 2, 2, 2] = 3 / 2 ∧
    median_score [1, 1, 1, 1, 1, 1, 2, 2, 2, 2, 2, 2] ≠
      spec_median [1, 1, 1, 1, 1, 1, 2, 2, 2, 2, 2, 2] := by
  have hs : sortedScores [(1 : ℚ), 1, 1, 1, 1, 1, 2, 2, 2, 2, 2, 2] =
      [1, 1, 1, 1, 1, 1, 2, 2, 2, 2, 2, 2] := by decide
  have h1 : median_score [(1 : ℚ), 1, 1, 1, 1, 1, 2, 2, 2, 2, 2, 2] = 2 := by decide
  have h2 : spec_median [(1 : ℚ), 1, 1, 1, 1, 1, 2, 2, 2, 2, 2, 2] = 3 / 2 := by
    simp only [spec_median, hs]
    norm_num
  exact ⟨h1, h2, by rw [h1, h2]; norm_num⟩

/-- Python `min` of a list is a lower bound of its elements. -/
theorem pyMin_le (l : List ℚ) (x : ℚ) (hx : x ∈ l) : pyMin l ≤ x := by
  match l with
  | [] => cases hx
  | y :: t =>
    rcases List.mem_cons.1 hx with rfl | h
    · exact foldl_min_le_init t x
    · exact foldl_min_le_mem t y x h

/-- Python `min` of a nonempty list is one of its elements. -/
theorem pyMin_mem (l : List ℚ) (h : l ≠ []) : pyMin l ∈ l := by
  match l with
  | [] => exact absurd rfl h
  | y :: t =>
    show t.foldl min y ∈ y :: t
    rcases foldl_min_mem t y with h1 | h1
    · rw [h1]
      exact List.mem_cons_self y t
    · exact List.mem_cons_of_mem y h1

/-- Python `max` of a list is an upper bound of its elements. -/
theorem pyMax_ge (l : List ℚ) (x : ℚ) (hx : x ∈ l) : x ≤ pyMax l := by
  match l with
  | [] => cases hx
  | y :: t =>
    rcases List.mem_cons.1 hx with rfl | h
    · exact foldl_max_ge_init t x
    · exact foldl_max_ge_mem t y x h

/-- Python `max` of a nonempty list is one of its elements. -/
theorem pyMax_mem (l : List ℚ) (h : l ≠ []) : pyMax l ∈ l := by
  match l with
  | [] => exact absurd rfl h
  | y :: t =>
    show t.foldl max y ∈ y :: t
    rcases foldl_max_mem t y with h1 | h1
    · rw [h1]
      exact List.mem_cons_self y t
    · exact List.mem_cons_of_mem y h1

/-- C5 amended: over a stored record's twelve scores the analysis reports a
mean equal to their sum divided by 12, a median equal to the element at index
6 of the sorted scores — the upper of the two middle values, which is one of
the scores, with at least seven scores at most it and at least six at least
it, but not in general the statistical median — a standard deviation equal to
the square root of the mean of squared deviations from the mean (nonnegative,
with square times 12 equal to the sum of squared deviations), and min and max
equal to the smallest and largest score. -/
theorem C5_feedback_statistics_amended (r : FeedbackAnalysisRow) :
    (∀ db fid, db.find? (fun x => x.id = fid) = some r →
      analyze_feedback_data db fid = .ok (feedbackStatistics (feedback_scores r))) ∧
    (feedbackStatistics (feedback_scores r)).mean * 12 = (feedback_scores r).sum ∧
    ((feedbackStatistics (feedback_scores r)).median ∈ feedback_scores r ∧
      7 ≤ ((feedback_scores r).filter fun x =>
        x ≤ (feedbackStatistics (feedback_scores r)).median).length ∧
      6 ≤ ((feedback_scores r).filter fun x =>
        (feedbackStatistics (feedback_scores r)).median ≤ x).length) ∧
    (0 ≤ (feedbackStatistics (feedback_scores r)).stddev ∧
      (feedbackStatistics (feedback_scores r)).stddev ^ 2 * 12 =
        ((((feedback_scores r).map fun x =>
          (x - (feedbackStatistics (feedback_scores r)).mean) ^ 2).sum : ℚ) : ℝ)) ∧
    ((feedbackStatistics (feedback_scores r)).minScore ∈ feedback_scores r ∧
      ∀ x ∈ feedback_scores r, (feedbackStatistics (feedback_scores r)).minScore ≤ x) ∧
    ((feedbackStatistics (feedback_scores r)).maxScore ∈ feedback_scores r ∧
      ∀ x ∈ feedback_scores r, x ≤ (feedbackStatistics (feedback_scores r)).maxScore) := by
  have hlen : (feedback_scores r).length = 12 := rfl
  have hne : feedback_scores r ≠ [] := by
    show r.q1 :: _ ≠ []
    exact List.cons_ne_nil _ _
  refine ⟨?_, ?_, ?_, ?_, ?_, ?_⟩
  · intro db fid hfind
    unfold analyze_feedback_data
    rw [hfind]
  · simp only [feedbackStatistics]
    unfold mean_score
    rw [hlen]
    push_cast
    exact div_mul_cancel₀ _ (by norm_num)
  · have hperm : (sortedScores (feedback_scores r)).Perm (feedback_scores r) :=
      List.perm_insertionSort _ _
    have hsorted : List.Sorted (· ≤ ·) (sortedScores (feedback_scores r)) :=
      List.sorted_insertionSort _ _
    have hslen : (sortedScores (feedback_scores r)).length = 12 := by
      rw [hperm.length_eq, hlen]
    have h6 : 6 < (sortedScores (feedback_scores r)).length := by omega
    have hmed : (feedbackStatistics (feedback_scores r)).median =
        (sortedScores (feedback_scores r))[6] := by
      simp only [feedbackStatistics, median_score]
      rw [show (feedback_scores r).length / 2 = 6 by simp [feedback_scores]]
      exact List.getD_eq_getElem _ _ h6
    refine ⟨?_, ?_, ?_⟩
    · rw [hmed]
      exact hperm.mem_iff.1 (List.getElem_mem h6)
    · rw [hmed]
      have hc := sorted_count_le (sortedScores (feedback_scores r)) hsorted 6 h6
      rw [(hperm.filter _).length_eq] at hc
      exact hc
    · rw [hmed]
      have hc := sorted_count_ge (sortedScores (feedback_scores r)) hsorted 6 h6
      rw [(hperm.filter _).length_eq, hslen] at hc
      exact hc
  · have hvar : 0 ≤ variance_score (feedback_scores r) := by
      unfold variance_score
      apply div_nonneg
      · apply List.sum_nonneg
        intro x hx
        rw [List.mem_map] at hx
        obtain ⟨y, _, rfl⟩ := hx
        positivity
      · positivity
    have hvar12 : variance_score (feedback_scores r) * 12 =
        ((feedback_scores r).map fun x => (x - mean_score (feedback_scores r)) ^ 2).sum := by
      unfold variance_score
      rw [hlen]
      push_cast
      exact div_mul_cancel₀ _ (by norm_num)
    refine ⟨Real.sqrt_nonneg _, ?_⟩
    simp only [feedbackStatistics, mean_score]
    unfold std_dev_score
    rw [Real.sq_sqrt (by exact_mod_cast hvar)]
    have hvar12c : (((variance_score (feedback_scores r) * 12 : ℚ)) : ℝ) =
        ((((feedback_scores r).map fun x =>
          (x - mean_score (feedback_scores r)) ^ 2).sum : ℚ) : ℝ) := by
      exact_mod_cast congrArg (fun q => ((q : ℚ) : ℝ)) hvar12
    push_cast at hvar12c ⊢
    simp only [mean_score] at hvar12c
    linarith [hvar12c]
  · simp only [feedbackStatistics]
    exact ⟨pyMin_mem _ hne, fun x hx => pyMin_le _ x hx⟩
  · simp only [feedbackStatistics]
    exact ⟨pyMax_mem _ hne, fun x hx => pyMax_ge _ x hx⟩

/-- Witness for C5: on the record with scores 1..12, the analysis is the
statistics of those scores, whose reported min is 1, which is at most the
score 3. -/
theorem C5_feedback_statistics_amended_witness :
    analyze_feedback_data [⟨"f0", 1, 2, 3, 4, 5, 6, 7, 8, 9, 10, 11, 12⟩] "f0" =
      .ok (feedbackStatistics
        (feedback_scores ⟨"f0", 1, 2, 3, 4, 5, 6, 7, 8, 9, 10, 11, 12⟩)) ∧
    (feedbackStatistics
      (feedback_scores ⟨"f0", 1, 2, 3, 4, 5, 6, 7, 8, 9, 10, 11, 12⟩)).minScore ≤ 3 ∧
    pyMin (feedback_scores ⟨"f0", 1, 2, 3, 4, 5, 6, 7, 8, 9, 10, 11, 12⟩) = 1 :=
  ⟨(C5_feedback_statistics_amended ⟨"f0", 1, 2, 3, 4, 5, 6, 7, 8, 9, 10, 11, 12⟩).1
      [⟨"f0", 1, 2, 3, 4, 5, 6, 7, 8, 9, 10, 11, 12⟩] "f0" (by decide),
   (C5_feedback_statistics_amended
      ⟨"f0", 1, 2, 3, 4, 5, 6, 7, 8, 9, 10, 11, 12⟩).2.2.2.2.1.2 3 (by decide),
   by decide⟩

/-- Appending a row whose key is absent keeps the key column duplicate-free. -/
theorem nodup_map_append {α : Type} (l : List α) (key : α → String) (x : α)
    (h : (l.map key).Nodup) (hx : ∀ y ∈ l, key y ≠ key x) :
    ((l ++ [x]).map key).Nodup := by
  rw [List.map_append, List.map_singleton]
  refine List.Nodup.append h (List.nodup_singleton _) ?_
  rw [List.disjoint_singleton, List.mem_map]
  rintro ⟨y, hy, hky⟩
  exact hx y hy hky

/-- Replacing the row with a given primary key by a new row whose key either
equals the old row's key or collides with no row keeps the key column
duplicate-free. -/
theorem nodup_map_replace {α : Type} (l : List α) (id_ key : α → String)
    (tid : String) (newx : α)
    (hids : (l.map id_).Nodup) (hkeys : (l.map key).Nodup)
    (hcase : ∀ x ∈ l, id_ x = tid →
      (key newx = key x ∨ ∀ y ∈ l, key y ≠ key newx)) :
    ((l.map fun x => if id_ x = tid then newx else x).map key).Nodup := by
  induction l with
  | nil => simp
  | cons a t ih =>
    simp only [List.map_cons] at hids hkeys ⊢
    have hida := (List.nodup_cons.1 hids).1
    have hids_t := (List.nodup_cons.1 hids).2
    have hka := (List.nodup_cons.1 hkeys).1
    have hkeys_t := (List.nodup_cons.1 hkeys).2
    by_cases ha : id_ a = tid
    · have hrepl : (t.map fun x => if id_ x = tid then newx else x) = t := by
        have : (t.map fun x => if id_ x = tid then newx else x) = t.map id := by
          apply List.map_congr_left
          intro x hx
          refine if_neg fun hxe => hida ?_
          rw [List.mem_map]
          exact ⟨x, hx, by rw [hxe, ha]⟩
        rw [this, List.map_id]
      rw [if_pos ha, hrepl, List.nodup_cons]
      refine ⟨?_, hkeys_t⟩
      rcases hcase a (List.mem_cons_self _ _) ha with hc | hc
      · rw [hc]
        exact hka
      · intro hmem
        rw [List.mem_map] at hmem
        obtain ⟨y, hy, hky⟩ := hmem
        exact hc y (List.mem_cons_of_mem a hy) hky
    · rw [if_neg ha, List.nodup_cons]
      constructor
      · intro hmem
        rw [List.mem_map] at hmem
        obtain ⟨z, hz, hkz⟩ := hmem
        rw [List.mem_map] at hz
        obtain ⟨x, hx, rfl⟩ := hz
        by_cases hxid : id_ x = tid
        · rw [if_pos hxid] at hkz
          rcases hcase x (List.mem_cons_of_mem a hx) hxid with hc | hc
          · apply hka
            rw [List.mem_map]
            exact ⟨x, hx, by rw [← hc, hkz]⟩
          · exact hc a (List.mem_cons_self a t) hkz.symm
        · rw [if_neg hxid] at hkz
          exact hka (List.mem_map.2 ⟨x, hx, hkz⟩)
      · refine ih hids_t hkeys_t ?_
        intro x hx hxid
        rcases hcase x (List.mem_cons_of_mem a hx) hxid with hc | hc
        · exact Or.inl hc
        · exact Or.inr fun y hy => hc y (List.mem_cons_of_mem a hy)

/-- Inserting a department through `create_department` keeps the uniqueness
invariants: the pre-check guarantees the new code is fresh. -/
theorem create_department_preserves_uniq (st : DbState) (dc : DepartmentCreate)
    (newId : String) (st' : DbState) (d : Department)
    (hu : UniqInv st) (h : create_department st dc newId = .ok (st', d)) :
    UniqInv st' := by
  unfold create_department at h
  rcases hfind : get_department_by_code st dc.code with _ | d0
  · rw [hfind] at h
    have hfresh : ∀ y ∈ st.departments, y.code ≠ dc.code := by
      intro y hy
      have hy2 := List.find?_eq_none.1 hfind y hy
      simpa using hy2
    rw [if_neg (by simp : ¬ (none : Option Department).isSome = true)] at h
    repeat' split at h
    all_goals try exact Except.noConfusion h
    all_goals
      injection h with h2
      cases h2
      exact ⟨hu.1, hu.2.1,
        nodup_map_append st.departments (fun x => x.code) _ hu.2.2 hfresh⟩
  · rw [hfind] at h
    rw [if_pos (by simp : (some d0).isSome = true)] at h
    exact Except.noConfusion h

/-- The first row `find?` returns for a key is the only row carrying that key
when the key column is duplicate-free. -/
theorem find?_eq_unique {α : Type} (l : List α) (f : α → String) (t : String)
    (x0 : α) (hnd : (l.map f).Nodup)
    (hfound : l.find? (fun x => f x = t) = some x0)
    (x : α) (hx : x ∈ l) (hxt : f x = t) : x = x0 := by
  have h1 := List.find?_some hfound
  have h2 := List.mem_of_find?_eq_some hfound
  have h3 : f x0 = t := by simpa using h1
  exact List.inj_on_of_nodup_map hnd hx h2 (by rw [hxt, h3])

/-- The name update does not change a department's code or id. -/
theorem deptNameUpdate_code_id (dep : DepartmentUpdate) (d0 : Department) :
    (deptNameUpdate dep d0).code = d0.code ∧ (deptNameUpdate dep d0).id = d0.id := by
  unfold deptNameUpdate
  cases dep.name <;> exact ⟨rfl, rfl⟩

/-- The scalar updates do not change a department's code or id. -/
theorem deptScalarUpdates_code_id (dep : DepartmentUpdate) (x : Department) :
    (deptScalarUpdates dep x).code = x.code ∧ (deptScalarUpdates dep x).id = x.id := by
  unfold deptScalarUpdates
  cases dep.description <;> cases dep.established_date <;> cases dep.is_active <;>
    exact ⟨rfl, rfl⟩

/-- A successful HOD update does not change a department's code or id. -/
theorem deptHodUpdate_code_id (st : DbState) (dep : DepartmentUpdate)
    (x y : Department) (h : deptHodUpdate st dep x = .ok y) :
    y.code = x.code ∧ y.id = x.id := by
  unfold deptHodUpdate at h
  rcases hh : dep.hod_id with _ | v
  · rw [hh] at h
    injection h with h2
    subst h2
    exact ⟨rfl, rfl⟩
  · rw [hh] at h
    dsimp only at h
    by_cases he : v = ""
    · rw [if_pos he] at h
      injection h with h2
      subst h2
      exact ⟨rfl, rfl⟩
    · rw [if_neg he] at h
      rcases hf : st.users.find? (fun u => u.id = v) with _ | hod <;> rw [hf] at h <;>
        dsimp only at h
      · exact Except.noConfusion h
      · by_cases hr : hod.roles.contains "hod" = true
        · rw [if_pos hr] at h
          injection h with h2
          subst h2
          exact ⟨rfl, rfl⟩
        · rw [if_neg hr] at h
          exact Except.noConfusion h

/-- A successful code update keeps the id, and its resulting code either is
the original row's code, or collides with no row, or collides only with the
row being updated. -/
theorem deptCodeUpdate_ok (st : DbState) (tid : String) (dep : DepartmentUpdate)
    (d0 x y : Department) (h : deptCodeUpdate st tid dep d0 x = .ok y)
    (hxc : x.code = d0.code) :
    y.id = x.id ∧
    (y.code = d0.code ∨
     (∀ z ∈ st.departments, z.code ≠ y.code) ∨
     ∃ ex ∈ st.departments, ex.code = y.code ∧ ex.id = tid) := by
  unfold deptCodeUpdate at h
  rcases hc : dep.code with _ | c
  · rw [hc] at h
    injection h with h2
    subst h2
    exact ⟨rfl, Or.inl hxc⟩
  · rw [hc] at h
    dsimp only at h
    by_cases hne : c ≠ d0.code
    · rw [if_pos hne] at h
      rcases hfind : get_department_by_code st c with _ | ex <;> rw [hfind] at h <;>
        dsimp only at h
      · injection h with h2
        subst h2
        refine ⟨rfl, Or.inr (Or.inl ?_)⟩
        intro z hz
        have hz2 := List.find?_eq_none.1 hfind z hz
        simpa using hz2
      · by_cases hid : ex.id ≠ tid
        · rw [if_pos hid] at h
          exact Except.noConfusion h
        · rw [if_neg hid] at h
          injection h with h2
          subst h2
          push_neg at hid
          refine ⟨rfl, Or.inr (Or.inr ⟨ex, List.mem_of_find?_eq_some hfind, ?_, hid⟩)⟩
          have he := List.find?_some hfind
          simpa using he
    · rw [if_neg hne] at h
      injection h with h2
      subst h2
      exact ⟨rfl, Or.inl hxc⟩

/-- Updating a department through `update_department` keeps the uniqueness
invariants: the code pre-check guarantees a changed code is fresh. -/
theorem update_department_preserves_uniq (st : DbState) (tid : String)
    (dep : DepartmentUpdate) (st' : DbState) (d : Department)
    (hu : UniqInv st) (hp : PkInv st)
    (h : update_department st tid dep = .ok (some (st', d))) : UniqInv st' := by
  unfold update_department at h
  rcases hget : get_department st tid with _ | d0 <;> rw [hget] at h <;> dsimp only at h
  · injection h with h2
    exact Option.noConfusion h2
  · rcases hcode : deptCodeUpdate st tid dep d0 (deptNameUpdate dep d0) with e | d2 <;>
      rw [hcode] at h <;> dsimp only at h
    · exact Except.noConfusion h
    · rcases hhod : deptHodUpdate st dep (deptScalarUpdates dep d2) with e | d6 <;>
        rw [hhod] at h <;> dsimp only at h
      · exact Except.noConfusion h
      · injection h with h2
        injection h2 with h3
        rw [Prod.mk.injEq] at h3
        obtain ⟨h4, h5⟩ := h3
        subst h4
        subst h5
        have hn := deptNameUpdate_code_id dep d0
        have hcu := deptCodeUpdate_ok st tid dep d0 _ d2 hcode hn.1
        have hsc := deptScalarUpdates_code_id dep d2
        have hhc := deptHodUpdate_code_id st dep _ _ hhod
        have hdc : d6.code = d2.code := by rw [hhc.1, hsc.1]
        refine ⟨hu.1, hu.2.1,
          nodup_map_replace st.departments (fun z => z.id) (fun z => z.code) tid d6
            hp.2.2 hu.2.2 ?_⟩
        intro x hx hxid
        dsimp only at hxid ⊢
        have hx0 : x = d0 :=
          find?_eq_unique st.departments (fun z => z.id) tid d0 hp.2.2 hget x hx hxid
        rcases hcu.2 with hcase | hfresh | ⟨ex, hexmem, hexcode, hexid⟩
        · left
          rw [hx0, hdc, hcase]
        · right
          intro y hy
          rw [hdc]
          exact hfresh y hy
        · left
          have hex0 : ex = d0 :=
            find?_eq_unique st.departments (fun z => z.id) tid d0 hp.2.2 hget ex hexmem hexid
          rw [hx0, hdc, ← hexcode, hex0]

/-- The department-code pre-check of `create_department` raises 409 when the
code is taken. -/
theorem create_department_conflict (st : DbState) (dc : DepartmentCreate)
    (newId : String) (hdup : (get_department_by_code st dc.code).isSome = true) :
    ∃ e, create_department st dc newId = .error e ∧ e.statusCode = 409 := by
  unfold create_department
  rw [if_pos hdup]
  exact ⟨_, rfl, rfl⟩

/-- The email pre-check of `create_user` raises 409 when the email is taken. -/
theorem create_user_conflict (st : DbState) (uc : UserCreate) (newId : String)
    (hdup : (get_user_by_email st uc.email).isSome = true) :
    ∃ e, create_user st uc newId = .error e ∧ e.statusCode = 409 := by
  unfold create_user
  rcases hfind : get_user_by_email st uc.email with _ | u0
  · rw [hfind] at hdup
    simp at hdup
  · exact ⟨_, rfl, rfl⟩

/-- Inserting a user through `create_user` keeps the uniqueness invariants:
the pre-check guarantees the new email is fresh. -/
theorem create_user_preserves_uniq (st : DbState) (uc : UserCreate)
    (newId : String) (st' : DbState) (u : UserRow) (hu : UniqInv st)
    (h : create_user st uc newId = .ok (st', u)) : UniqInv st' := by
  unfold create_user at h
  rcases hfind : get_user_by_email st uc.email with _ | u0 <;> rw [hfind] at h <;>
    dsimp only at h
  · injection h with h2
    rw [Prod.mk.injEq] at h2
    obtain ⟨h3, h4⟩ := h2
    subst h3
    refine ⟨?_, hu.2.1, hu.2.2⟩
    refine nodup_map_append st.users (fun z => z.email) _ hu.1 ?_
    intro y hy
    have hy2 := List.find?_eq_none.1 hfind y hy
    simpa using hy2
  · exact Except.noConfusion h

/-- Inserting a student through `create_student` keeps the uniqueness
invariants: the pre-checks guarantee a fresh enrollment number, and a linked
user is only created when its email is absent. -/
theorem create_student_preserves_uniq (st : DbState) (sc : StudentCreate)
    (nuid nsid : String) (st' : DbState) (srow : StudentRow) (hu : UniqInv st)
    (h : create_student st sc nuid nsid = .ok (st', srow)) : UniqInv st' := by
  unfold create_student at h
  by_cases h1 : (get_student_by_enrollment_no st sc.enrollment_no).isSome = true
  · rw [if_pos h1] at h
    exact Except.noConfusion h
  · rw [if_neg h1] at h
    by_cases h2 :
        (st.students.find? fun s => s.institutionalEmail = sc.institutional_email).isSome = true
    · rw [if_pos h2] at h
      exact Except.noConfusion h
    · rw [if_neg h2] at h
      by_cases h3 : (st.departments.find? fun d => d.id = sc.department_id).isNone = true
      · rw [if_pos h3] at h
        exact Except.noConfusion h
      · rw [if_neg h3] at h
        dsimp only at h
        have hfresh : ∀ y ∈ st.students, y.enrollmentNo ≠ sc.enrollment_no := by
          intro y hy
          rcases hfe : get_student_by_enrollment_no st sc.enrollment_no with _ | z
          · have hy2 := List.find?_eq_none.1 hfe y hy
            simpa using hy2
          · rw [hfe] at h1
            simp at h1
        rcases hue : get_user_by_email st sc.email with _ | uex <;> rw [hue] at h <;>
          dsimp only at h
        · injection h with hh2
          rw [Prod.mk.injEq] at hh2
          obtain ⟨h3b, h4⟩ := hh2
          subst h3b
          refine ⟨?_, ?_, hu.2.2⟩
          · refine nodup_map_append st.users (fun z => z.email) _ hu.1 ?_
            intro y hy
            have hy2 := List.find?_eq_none.1 hue y hy
            simpa using hy2
          · exact nodup_map_append st.students (fun z => z.enrollmentNo) _ hu.2.1 hfresh
        · injection h with hh2
          rw [Prod.mk.injEq] at hh2
          obtain ⟨h3b, h4⟩ := hh2
          subst h3b
          exact ⟨hu.1,
            nodup_map_append st.students (fun z => z.enrollmentNo) _ hu.2.1 hfresh, hu.2.2⟩

/-- The name update does not change a user's email or id. -/
theorem userNameUpdate_email_id (uu : UserUpdate) (u0 : UserRow) :
    (userNameUpdate uu u0).email = u0.email ∧ (userNameUpdate uu u0).id = u0.id := by
  unfold userNameUpdate
  cases uu.name <;> exact ⟨rfl, rfl⟩

/-- The department/roles updates do not change a user's email or id. -/
theorem userTailUpdates_email_id (st : DbState) (uu : UserUpdate) (x : UserRow) :
    (userTailUpdates st uu x).email = x.email ∧ (userTailUpdates st uu x).id = x.id := by
  unfold userTailUpdates
  cases uu.department_id <;> cases uu.roles <;> dsimp only <;>
    first
      | exact ⟨rfl, rfl⟩
      | (split <;> exact ⟨rfl, rfl⟩)

/-- A successful email update keeps the id, and the resulting email either is
the original row's email or collides with no row. -/
theorem userEmailUpdate_ok (st : DbState) (uu : UserUpdate) (u0 x y : UserRow)
    (h : userEmailUpdate st uu u0 x = .ok y) (hxe : x.email = u0.email) :
    y.id = x.id ∧ (y.email = u0.email ∨ ∀ z ∈ st.users, z.email ≠ y.email) := by
  unfold userEmailUpdate at h
  rcases he : uu.email with _ | e
  · rw [he] at h
    injection h with h2
    subst h2
    exact ⟨rfl, Or.inl hxe⟩
  · rw [he] at h
    dsimp only at h
    by_cases hne : e ≠ u0.email
    · rw [if_pos hne] at h
      rcases hf : get_user_by_email st e with _ | z <;> rw [hf] at h <;> dsimp only at h
      · injection h with h2
        subst h2
        refine ⟨rfl, Or.inr ?_⟩
        intro z hz
        have hz2 := List.find?_eq_none.1 hf z hz
        simpa using hz2
      · exact Except.noConfusion h
    · rw [if_neg hne] at h
      injection h with h2
      subst h2
      exact ⟨rfl, Or.inl hxe⟩

/-- Updating a user through `update_user` keeps the uniqueness invariants:
the email pre-check guarantees a changed email is fresh. -/
theorem update_user_preserves_uniq (st : DbState) (uid : String) (uu : UserUpdate)
    (st' : DbState) (u : UserRow) (hu : UniqInv st) (hp : PkInv st)
    (h : update_user st uid uu = .ok (some (st', u))) : UniqInv st' := by
  unfold update_user at h
  rcases hget : st.users.find? (fun z => z.id = uid) with _ | u0 <;> rw [hget] at h <;>
    dsimp only at h
  · injection h with h2
    exact Option.noConfusion h2
  · rcases hmail : userEmailUpdate st uu u0 (userNameUpdate uu u0) with e | u2 <;>
      rw [hmail] at h <;> dsimp only at h
    · exact Except.noConfusion h
    · injection h with h2
      injection h2 with h3
      rw [Prod.mk.injEq] at h3
      obtain ⟨h4, h5⟩ := h3
      subst h4
      subst h5
      have hn := userNameUpdate_email_id uu u0
      have hm := userEmailUpdate_ok st uu u0 _ u2 hmail hn.1
      have ht := userTailUpdates_email_id st uu u2
      refine ⟨nodup_map_replace st.users (fun z => z.id) (fun z => z.email) uid _
        hp.1 hu.1 ?_, hu.2.1, hu.2.2⟩
      intro x hx hxid
      dsimp only at hxid ⊢
      have hx0 : x = u0 :=
        find?_eq_unique st.users (fun z => z.id) uid u0 hp.1 hget x hx hxid
      rcases hm.2 with hcase | hfresh
      · left
        rw [hx0, ht.1, hcase]
      · right
        intro y hy
        rw [ht.1]
        exact hfresh y hy

/-- A successful enrollment-number update keeps the id, and the resulting
enrollment number either is the original row's, or collides with no row, or
collides only with the row being updated. -/
theorem stuEnrollUpdate_ok (st : DbState) (sid : String) (su : StudentUpdate)
    (s0 y : StudentRow) (h : stuEnrollUpdate st sid su s0 = .ok y) :
    y.id = s0.id ∧
    (y.enrollmentNo = s0.enrollmentNo ∨
     (∀ z ∈ st.students, z.enrollmentNo ≠ y.enrollmentNo) ∨
     ∃ ex ∈ st.students, ex.enrollmentNo = y.enrollmentNo ∧ ex.id = sid) := by
  unfold stuEnrollUpdate at h
  by_cases hg : (pyTruthy su.enrollment_no &&
      !(su.enrollment_no.getD "" == s0.enrollmentNo)) = true
  · rw [if_pos hg] at h
    rcases hf : get_student_by_enrollment_no st (su.enrollment_no.getD "") with _ | ex <;>
      rw [hf] at h <;> dsimp only at h
    · injection h with h2
      subst h2
      refine ⟨rfl, Or.inr (Or.inl ?_)⟩
      intro z hz
      have hz2 := List.find?_eq_none.1 hf z hz
      simpa using hz2
    · by_cases hid : ex.id ≠ sid
      · rw [if_pos hid] at h
        exact Except.noConfusion h
      · rw [if_neg hid] at h
        injection h with h2
        subst h2
        push_neg at hid
        refine ⟨rfl, Or.inr (Or.inr ⟨ex, List.mem_of_find?_eq_some hf, ?_, hid⟩)⟩
        have he := List.find?_some hf
        simpa using he
  · rw [if_neg hg] at h
    injection h with h2
    subst h2
    exact ⟨rfl, Or.inl rfl⟩

/-- A successful institutional-email update keeps the id and the enrollment
number. -/
theorem stuInstEmailUpdate_ok (st : DbState) (sid : String) (su : StudentUpdate)
    (s0 x y : StudentRow) (h : stuInstEmailUpdate st sid su s0 x = .ok y) :
    y.id = x.id ∧ y.enrollmentNo = x.enrollmentNo := by
  unfold stuInstEmailUpdate at h
  by_cases hg : (pyTruthy su.institutional_email &&
      !(su.institutional_email.getD "" == s0.institutionalEmail)) = true
  · rw [if_pos hg] at h
    rcases hf : st.students.find?
        (fun s => s.institutionalEmail = su.institutional_email.getD "") with _ | ex <;>
      rw [hf] at h <;> dsimp only at h
    · injection h with h2
      subst h2
      exact ⟨rfl, rfl⟩
    · by_cases hid : ex.id ≠ sid
      · rw [if_pos hid] at h
        exact Except.noConfusion h
      · rw [if_neg hid] at h
        injection h with h2
        subst h2
        exact ⟨rfl, rfl⟩
  · rw [if_neg hg] at h
    injection h with h2
    subst h2
    exact ⟨rfl, rfl⟩

/-- When the linked-user step returns an updated user, that user is the
looked-up linked user with its id kept, and its email either unchanged,
collision-free, or colliding only with the linked user itself. -/
theorem stuUserUpdate_ok (st : DbState) (su : StudentUpdate) (s0 : StudentRow)
    (u2 : UserRow) (h : stuUserUpdate st su s0 = .ok (some u2)) :
    ∃ u, s0.userId.bind (fun uid => st.users.find? fun z => z.id = uid) = some u ∧
      u2.id = u.id ∧
      (u2.email = u.email ∨
       (∀ z ∈ st.users, z.email ≠ u2.email) ∨
       ∃ ex ∈ st.users, ex.email = u2.email ∧ ex.id = u.id) := by
  unfold stuUserUpdate at h
  by_cases hg : (pyTruthy su.name || pyTruthy su.email) = true
  · rw [if_pos hg] at h
    rcases hf : s0.userId.bind (fun uid => st.users.find? fun z => z.id = uid) with _ | u <;>
      rw [hf] at h <;> dsimp only at h
    · exact Except.noConfusion h
    · refine ⟨u, hf, ?_⟩
      by_cases hm : (pyTruthy su.email && !(su.email.getD "" == u.email)) = true
      · rw [if_pos hm] at h
        rcases hfe : get_user_by_email st (su.email.getD "") with _ | ex <;>
          rw [hfe] at h <;> dsimp only at h
        · injection h with h2
          injection h2 with h3
          subst h3
          constructor
          · by_cases hn : pyTruthy su.name = true <;> simp [hn]
          · refine Or.inr (Or.inl ?_)
            intro z hz
            have hz2 := List.find?_eq_none.1 hfe z hz
            by_cases hn : pyTruthy su.name = true <;> simp [hn] <;> simpa using hz2
        · by_cases hid : ex.id ≠ u.id
          · rw [if_pos hid] at h
            exact Except.noConfusion h
          · rw [if_neg hid] at h
            injection h with h2
            injection h2 with h3
            subst h3
            push_neg at hid
            constructor
            · by_cases hn : pyTruthy su.name = true <;> simp [hn]
            · refine Or.inr (Or.inr ⟨ex, List.mem_of_find?_eq_some hfe, ?_, hid⟩)
              have he := List.find?_some hfe
              by_cases hn : pyTruthy su.name = true <;> simp [hn] <;> simpa using he
      · rw [if_neg hm] at h
        injection h with h2
        injection h2 with h3
        subst h3
        constructor
        · by_cases hn : pyTruthy su.name = true <;> simp [hn]
        · left
          by_cases hn : pyTruthy su.name = true <;> simp [hn]
  · rw [if_neg hg] at h
    injection h with h2
    exact Option.noConfusion h2

/-- A successful department update keeps the student row's id and enrollment
number, and either leaves the user untouched or only changes the department
of the (possibly just-updated, possibly re-fetched) linked user. -/
theorem stuDeptUpdate_ok (st : DbState) (su : StudentUpdate) (s0 x : StudentRow)
    (user1 : Option UserRow) (s3 : StudentRow) (user2 : Option UserRow)
    (h : stuDeptUpdate st su s0 x user1 = .ok (s3, user2)) :
    s3.id = x.id ∧ s3.enrollmentNo = x.enrollmentNo ∧
    (user2 = user1 ∨
      ∃ ub, user2 = some ub ∧
        ((∃ u1, user1 = some u1 ∧ ub.email = u1.email ∧ ub.id = u1.id) ∨
         (user1 = none ∧ ∃ u,
            s0.userId.bind (fun uid => st.users.find? fun z => z.id = uid) = some u ∧
            ub.email = u.email ∧ ub.id = u.id))) := by
  unfold stuDeptUpdate at h
  by_cases hg : pyTruthy su.department_id = true
  · rw [if_pos hg] at h
    by_cases hd : (st.departments.find? fun d => d.id = su.department_id.getD "").isNone = true
    · rw [if_pos hd] at h
      exact Except.noConfusion h
    · rw [if_neg hd] at h
      dsimp only at h
      injection h with h2
      rw [Prod.mk.injEq] at h2
      obtain ⟨h3, h4⟩ := h2
      subst h3
      refine ⟨rfl, rfl, ?_⟩
      rcases hu1 : user1 with _ | u1
      · rw [hu1] at h4
        dsimp only at h4
        rcases hlk : s0.userId.bind (fun uid => st.users.find? fun z => z.id = uid) with _ | u <;>
          rw [hlk] at h4 <;> simp only [Option.map] at h4
        · exact Or.inl h4.symm
        · right
          exact ⟨_, h4.symm, Or.inr ⟨rfl, u, hlk, rfl, rfl⟩⟩
      · rw [hu1] at h4
        simp only [Option.map] at h4
        right
        exact ⟨_, h4.symm, Or.inl ⟨u1, rfl, rfl, rfl⟩⟩
  · rw [if_neg hg] at h
    injection h with h2
    rw [Prod.mk.injEq] at h2
    obtain ⟨h3, h4⟩ := h2
    subst h3
    exact ⟨rfl, rfl, Or.inl h4.symm⟩

/-- Updating a student through `update_student` keeps the uniqueness
invariants: changed enrollment numbers and linked-user emails are
pre-checked. -/
theorem update_student_preserves_uniq (st : DbState) (sid : String)
    (su : StudentUpdate) (st' : DbState) (srow : StudentRow)
    (hu : UniqInv st) (hp : PkInv st)
    (h : update_student st sid su = .ok (some (st', srow))) : UniqInv st' := by
  unfold update_student at h
  rcases hget : st.students.find? (fun z => z.id = sid) with _ | s0 <;> rw [hget] at h <;>
    dsimp only at h
  · injection h with h2
    exact Option.noConfusion h2
  · rcases h1 : stuEnrollUpdate st sid su s0 with e | s1 <;> rw [h1] at h <;> dsimp only at h
    · exact Except.noConfusion h
    · rcases h2s : stuInstEmailUpdate st sid su s0 s1 with e | s2 <;> rw [h2s] at h <;>
        dsimp only at h
      · exact Except.noConfusion h
      · rcases h3s : stuUserUpdate st su s0 with e | user1 <;> rw [h3s] at h <;> dsimp only at h
        · exact Except.noConfusion h
        · rcases h4s : stuDeptUpdate st su s0 s2 user1 with e | su4 <;> rw [h4s] at h <;>
            dsimp only at h
          · exact Except.noConfusion h
          · obtain ⟨s3, user2⟩ := su4
            dsimp only at h
            injection h with hh2
            injection hh2 with hh3
            rw [Prod.mk.injEq] at hh3
            obtain ⟨hh4, hh5⟩ := hh3
            subst hh4
            have he1 := stuEnrollUpdate_ok st sid su s0 s1 h1
            have he2 := stuInstEmailUpdate_ok st sid su s0 s1 s2 h2s
            have he4 := stuDeptUpdate_ok st su s0 s2 user1 s3 user2 h4s
            have hs3e : s3.enrollmentNo = s1.enrollmentNo := by rw [he4.2.1, he2.2]
            refine ⟨?_, ?_, hu.2.2⟩
            · rcases huser2 : user2 with _ | u2
              · exact hu.1
              · have hlink : ∃ u,
                    s0.userId.bind (fun uid => st.users.find? fun z => z.id = uid) = some u ∧
                    u2.id = u.id ∧
                    (u2.email = u.email ∨ (∀ z ∈ st.users, z.email ≠ u2.email) ∨
                      ∃ ex ∈ st.users, ex.email = u2.email ∧ ex.id = u.id) := by
                  rcases he4.2.2 with hsame | ⟨ub, hub, hcases⟩
                  · rw [huser2] at hsame
                    rw [← hsame] at h3s
                    exact stuUserUpdate_ok st su s0 u2 h3s
                  · rw [huser2] at hub
                    injection hub with hub2
                    subst hub2
                    rcases hcases with ⟨u1, huser1, hube, hubi⟩ | ⟨huser1, u, hlk, hube, hubi⟩
                    · rw [huser1] at h3s
                      obtain ⟨u, hlk, hid1, hd1⟩ := stuUserUpdate_ok st su s0 u1 h3s
                      refine ⟨u, hlk, by rw [hubi, hid1], ?_⟩
                      rcases hd1 with hcase | hfresh | ⟨ex, hexm, hexe, hexi⟩
                      · exact Or.inl (by rw [hube, hcase])
                      · refine Or.inr (Or.inl ?_)
                        intro z hz
                        rw [hube]
                        exact hfresh z hz
                      · exact Or.inr (Or.inr ⟨ex, hexm, by rw [hexe, ← hube], hexi⟩)
                    · exact ⟨u, hlk, hubi, Or.inl hube⟩
                obtain ⟨u, hlk, hid, hdisj⟩ := hlink
                obtain ⟨uid0, hsid, hfindu⟩ := Option.bind_eq_some.1 hlk
                have humem := List.mem_of_find?_eq_some hfindu
                refine nodup_map_replace st.users (fun z => z.id) (fun z => z.email)
                  u2.id u2 hp.1 hu.1 ?_
                intro x hx hxid
                dsimp only at hxid ⊢
                have hxu : x = u :=
                  List.inj_on_of_nodup_map hp.1 hx humem (by rw [hxid, hid])
                rcases hdisj with hcase | hfresh | ⟨ex, hexm, hexe, hexi⟩
                · left
                  rw [hxu, hcase]
                · right
                  exact hfresh
                · left
                  have hexu : ex = u :=
                    List.inj_on_of_nodup_map hp.1 hexm humem (by rw [hexi])
                  rw [hxu, ← hexe, hexu]
            · refine nodup_map_replace st.students (fun z => z.id) (fun z => z.enrollmentNo)
                sid s3 hp.2.1 hu.2.1 ?_
              intro x hx hxid
              dsimp only at hxid ⊢
              have hx0 : x = s0 :=
                find?_eq_unique st.students (fun z => z.id) sid s0 hp.2.1 hget x hx hxid
              rcases he1.2 with hcase | hfresh | ⟨ex, hexm, hexe, hexi⟩
              · left
                rw [hx0, hs3e, hcase]
              · right
                intro y hy
                rw [hs3e]
                exact hfresh y hy
              · left
                have hex0 : ex = s0 :=
                  find?_eq_unique st.students (fun z => z.id) sid s0 hp.2.1 hget ex hexm hexi
                rw [hx0, hs3e, ← hexe, hex0]

/-- C6: the models declare unique constraints on `users.email`,
`students.enrollment_no` and `departments.code`; and from any state
satisfying the uniqueness invariants (and, for updates, primary-key
uniqueness, which the schema's primary keys provide), every embedded create
or update operation that succeeds yields a state still satisfying the
uniqueness invariants, with the service-level pre-checks raising 409 on a
duplicate email or department code exactly as the claim describes. -/
theorem C6_uniqueness_invariants :
    (User_email_column.unique = true ∧ Student_enrollment_no_column.unique = true ∧
      Department_code_column.unique = true) ∧
    (∀ st dc newId st' d, UniqInv st →
      create_department st dc newId = .ok (st', d) → UniqInv st') ∧
    (∀ st dc newId, (get_department_by_code st dc.code).isSome = true →
      ∃ e, create_department st dc newId = .error e ∧ e.statusCode = 409) ∧
    (∀ st uc newId st' u, UniqInv st →
      create_user st uc newId = .ok (st', u) → UniqInv st') ∧
    (∀ st uc newId, (get_user_by_email st uc.email).isSome = true →
      ∃ e, create_user st uc newId = .error e ∧ e.statusCode = 409) ∧
    (∀ st sc nuid nsid st' srow, UniqInv st →
      create_student st sc nuid nsid = .ok (st', srow) → UniqInv st') ∧
    (∀ st tid dep st' d, UniqInv st → PkInv st →
      update_department st tid dep = .ok (some (st', d)) → UniqInv st') ∧
    (∀ st uid uu st' u, UniqInv st → PkInv st →
      update_user st uid uu = .ok (some (st', u)) → UniqInv st') ∧
    (∀ st sid su st' srow, UniqInv st → PkInv st →
      update_student st sid su = .ok (some (st', srow)) → UniqInv st') := by
  refine ⟨⟨rfl, rfl, rfl⟩, ?_, ?_, ?_, ?_, ?_, ?_, ?_, ?_⟩
  · intro st dc newId st' d hu h
    exact create_department_preserves_uniq st dc newId st' d hu h
  · intro st dc newId hdup
    exact create_department_conflict st dc newId hdup
  · intro st uc newId st' u hu h
    exact create_user_preserves_uniq st uc newId st' u hu h
  · intro st uc newId hdup
    exact create_user_conflict st uc newId hdup
  · intro st sc nuid nsid st' srow hu h
    exact create_student_preserves_uniq st sc nuid nsid st' srow hu h
  · intro st tid dep st' d hu hp h
    exact update_department_preserves_uniq st tid dep st' d hu hp h
  · intro st uid uu st' u hu hp h
    exact update_user_preserves_uniq st uid uu st' u hu hp h
  · intro st sid su st' srow hu hp h
    exact update_student_preserves_uniq st sid su st' srow hu hp h

/-- Witness for C6: creating a department in the empty database succeeds and
the resulting single-row state still satisfies the uniqueness invariants. -/
theorem C6_uniqueness_invariants_witness :
    UniqInv emptyDb ∧
    create_department emptyDb ⟨"Civil Engineering", "CE", "Civil branch", none, true, none⟩
        "d1" =
      .ok ({ emptyDb with departments :=
          [⟨"d1", "Civil Engineering", "CE", "Civil branch", none, none, true⟩] },
        ⟨"d1", "Civil Engineering", "CE", "Civil branch", none, none, true⟩) ∧
    UniqInv { emptyDb with departments :=
      [⟨"d1", "Civil Engineering", "CE", "Civil branch", none, none, true⟩] } :=
  ⟨⟨List.nodup_nil, List.nodup_nil, List.nodup_nil⟩, rfl,
   C6_uniqueness_invariants.2.1 emptyDb
     ⟨"Civil Engineering", "CE", "Civil branch", none, true, none⟩ "d1"
     { emptyDb with departments :=
       [⟨"d1", "Civil Engineering", "CE", "Civil branch", none, none, true⟩] }
     ⟨"d1", "Civil Engineering", "CE", "Civil branch", none, none, true⟩
     ⟨List.nodup_nil, List.nodup_nil, List.nodup_nil⟩ rfl⟩

/-! ### C10 helper lemmas: digits, dates, stripping -/

/-- Reading back the digit character of a value below ten. -/
theorem digitVal_digitChar (k : Nat) (hk : k < 10) :
    digitVal (digitChar k) = k := by
  interval_cases k <;> decide

/-- Digit characters are digits. -/
theorem isDigit_digitChar (k : Nat) (hk : k < 10) :
    (digitChar k).isDigit = true := by
  interval_cases k <;> decide

/-- Digit characters are not whitespace. -/
theorem not_space_digitChar (k : Nat) (hk : k < 10) :
    pyIsSpace (digitChar k) = false := by
  interval_cases k <;> decide

/-- Stripping a string with no whitespace characters is the identity. -/
theorem pyStrip_eq_self (s : String)
    (h : ∀ c ∈ s.data, pyIsSpace c = false) : pyStrip s = s := by
  have h1 : s.data.dropWhile pyIsSpace = s.data := by
    cases hd : s.data with
    | nil => rfl
    | cons a l =>
      rw [List.dropWhile_cons_of_neg]
      simp [h a (by rw [hd]; exact List.mem_cons_self a l)]
  have h2 : (s.data.reverse.dropWhile pyIsSpace) = s.data.reverse := by
    cases hd : s.data.reverse with
    | nil => rfl
    | cons a l =>
      rw [List.dropWhile_cons_of_neg]
      have ha : a ∈ s.data := by
        rw [← List.mem_reverse, hd]; exact List.mem_cons_self a l
      simp [h a ha]
  rw [pyStrip, h1, h2, List.reverse_reverse]

/-- The `%Y-%m-%d` rendering of a valid date contains no whitespace, so the
import's `.strip()` leaves it unchanged. -/
theorem pyStrip_strftimeYMD (dt : PyDate) (hy : dt.year ≤ 9999)
    (hm : dt.month ≤ 12) (hd : dt.day ≤ 31) :
    pyStrip (strftimeYMD dt) = strftimeYMD dt := by
  apply pyStrip_eq_self
  intro c hc
  simp only [strftimeYMD, List.mem_cons, List.not_mem_nil, or_false] at hc
  rcases hc with h | h | h | h | h | h | h | h | h | h <;> subst h
  · exact not_space_digitChar _ (by omega)
  · exact not_space_digitChar _ (by omega)
  · exact not_space_digitChar _ (by omega)
  · exact not_space_digitChar _ (by omega)
  · decide
  · exact not_space_digitChar _ (by omega)
  · exact not_space_digitChar _ (by omega)
  · decide
  · exact not_space_digitChar _ (by omega)
  · exact not_space_digitChar _ (by omega)

/-- The `%Y-%m-%d` rendering is never the empty string. -/
theorem strftimeYMD_ne_empty (dt : PyDate) : strftimeYMD dt ≠ "" := by
  intro h
  have h2 := congrArg String.data h
  simp [strftimeYMD] at h2

/-- No month has more than 31 days. -/
theorem daysInMonth_le_31 (y m : Nat) : daysInMonth y m ≤ 31 := by
  rw [daysInMonth]
  split
  · split <;> omega
  · split <;> omega

/-- `strptime('%Y-%m-%d')` inverts `strftime('%Y-%m-%d')` on calendar-valid
dates with a zero time-of-day. -/
theorem strptimeYMD_strftimeYMD (y m d : Nat) (hy : y ≤ 9999)
    (hm1 : 1 ≤ m) (hm2 : m ≤ 12) (hd1 : 1 ≤ d) (hd2 : d ≤ daysInMonth y m) :
    strptimeYMD (strftimeYMD ⟨y, m, d, 0, 0, 0⟩) = some ⟨y, m, d, 0, 0, 0⟩ := by
  have hd31 : d ≤ 31 := le_trans hd2 (daysInMonth_le_31 y m)
  simp only [strftimeYMD, strptimeYMD]
  rw [if_pos]
  · rw [digitVal_digitChar (y / 1000) (by omega),
      digitVal_digitChar (y / 100 % 10) (by omega),
      digitVal_digitChar (y / 10 % 10) (by omega),
      digitVal_digitChar (y % 10) (by omega),
      digitVal_digitChar (m / 10) (by omega),
      digitVal_digitChar (m % 10) (by omega),
      digitVal_digitChar (d / 10) (by omega),
      digitVal_digitChar (d % 10) (by omega),
      show ((y / 1000 * 10 + y / 100 % 10) * 10 + y / 10 % 10) * 10 + y % 10 = y
        from by omega,
      show m / 10 * 10 + m % 10 = m from by omega,
      show d / 10 * 10 + d % 10 = d from by omega,
      if_pos ⟨⟨hm1, hm2⟩, hd1, hd2⟩]
  · refine ⟨⟨by trivial, by trivial⟩, ?_, ?_, ?_, ?_, ?_, ?_, ?_, ?_⟩ <;>
      exact isDigit_digitChar _ (by omega)

/-- Looking up a stored department by its own code returns that department
when codes are duplicate-free. -/
theorem get_department_by_code_self (st : DbState) (dep : Department)
    (hnd : (st.departments.map fun z => z.code).Nodup)
    (hmem : dep ∈ st.departments) :
    get_department_by_code st dep.code = some dep := by
  rcases hf : st.departments.find? (fun d => d.code = dep.code) with _ | d0
  · have h2 := List.find?_eq_none.1 hf dep hmem
    simp at h2
  · have h3 :=
      find?_eq_unique st.departments (fun z => z.code) dep.code d0 hnd hf dep hmem rfl
    rw [get_department_by_code, hf, h3]

/-- Importing the exported row of a stored department succeeds and leaves the
state unchanged, when the department's text fields are strip/upper-invariant
and non-empty, its date is a calendar-valid midnight, and codes are
duplicate-free. -/
theorem importDeptRow_roundtrip (st : DbState) (dep : Department) (nid : String)
    (hnd : (st.departments.map fun z => z.code).Nodup)
    (hmem : dep ∈ st.departments)
    (hname : pyStrip dep.name = dep.name) (hname0 : dep.name ≠ "")
    (hcode : pyStrip dep.code = dep.code) (hcodeU : pyUpper dep.code = dep.code)
    (hcode0 : dep.code ≠ "")
    (hdesc : pyStrip dep.description = dep.description) (hdesc0 : dep.description ≠ "")
    (dt : PyDate) (hest : dep.establishedDate = some dt)
    (hh : dt.hour = 0) (hmin : dt.minute = 0) (hsec : dt.second = 0)
    (hy : dt.year ≤ 9999) (hm1 : 1 ≤ dt.month) (hm2 : dt.month ≤ 12)
    (hd1 : 1 ≤ dt.day) (hd2 : dt.day ≤ daysInMonth dt.year dt.month) :
    importDeptRow st
      ⟨dep.name, dep.code, dep.description, strftimeYMD dt,
        if dep.isActive then "Yes" else "No"⟩ nid = .ok st := by
  have hdt : (⟨dt.year, dt.month, dt.day, 0, 0, 0⟩ : PyDate) = dt := by
    obtain ⟨y2, m2, d2, h2, mi2, s2⟩ := dt
    dsimp only at hh hmin hsec ⊢
    rw [hh, hmin, hsec]
  have hparse : parseDateCascade (pyStrip (strftimeYMD dt)) = some dt := by
    have h1 := strptimeYMD_strftimeYMD dt.year dt.month dt.day hy hm1 hm2 hd1 hd2
    rw [hdt] at h1
    rw [pyStrip_strftimeYMD dt hy hm2 (le_trans hd2 (daysInMonth_le_31 _ _))]
    simp only [parseDateCascade, h1]
  have hia : ∀ b : Bool,
      (["true", "1", "yes", "y"].contains
        (pyLower (pyStrip (if b then "Yes" else "No")))) = b := by
    decide
  have hfind := get_department_by_code_self st dep hnd hmem
  simp only [importDeptRow]
  rw [if_neg hname0, if_neg hcode0, if_neg hdesc0, if_neg (strftimeYMD_ne_empty dt)]
  rw [hname, hcode, hcodeU, hdesc, hparse]
  dsimp only
  rw [hia dep.isActive, hfind]
  dsimp only
  have hpt : ∀ x ∈ st.departments, (if x.code = dep.code then
      { x with name := dep.name, description := dep.description,
               establishedDate := some dt, isActive := dep.isActive }
    else x) = x := by
    intro x hx
    by_cases hc : x.code = dep.code
    · have hxd : x = dep := List.inj_on_of_nodup_map hnd hx hmem hc
      subst hxd
      rw [if_pos hc, ← hest]
    · rw [if_neg hc]
  have hmap := List.map_congr_left hpt
  simp only [List.map_id'] at hmap
  rw [hmap]

/-- The import loop over exported rows of stored departments keeps the state
fixed and counts every row as successful. -/
theorem importDeptStep_foldl_roundtrip (st : DbState) (idGen : Nat → String)
    (hnd : (st.departments.map fun z => z.code).Nodup)
    (hOK : ∀ dep ∈ st.departments,
      pyStrip dep.name = dep.name ∧ dep.name ≠ "" ∧
      pyStrip dep.code = dep.code ∧ pyUpper dep.code = dep.code ∧ dep.code ≠ "" ∧
      pyStrip dep.description = dep.description ∧ dep.description ≠ "" ∧
      ∃ dt, dep.establishedDate = some dt ∧
        dt.hour = 0 ∧ dt.minute = 0 ∧ dt.second = 0 ∧
        dt.year ≤ 9999 ∧ 1 ≤ dt.month ∧ dt.month ≤ 12 ∧ 1 ≤ dt.day ∧
        dt.day ≤ daysInMonth dt.year dt.month) :
    ∀ (ds : List Department), (∀ x ∈ ds, x ∈ st.departments) →
      ∀ (s f n : Nat),
      (ds.map deptCsvRowOf).foldl (importDeptStep idGen) (st, s, f, n) =
        (st, s + ds.length, f, n + ds.length) := by
  intro ds
  induction ds with
  | nil => intro _ s f n; simp
  | cons d rest ih =>
    intro hsub s f n
    obtain ⟨hname, hname0, hcode, hcodeU, hcode0, hdesc, hdesc0, dt, hest, hh,
      hmin, hsec, hy, hm1a, hm2a, hd1a, hd2a⟩ :=
      hOK d (hsub d (List.mem_cons_self _ _))
    have himp := importDeptRow_roundtrip st d (idGen n) hnd
      (hsub d (List.mem_cons_self _ _)) hname hname0 hcode hcodeU hcode0
      hdesc hdesc0 dt hest hh hmin hsec hy hm1a hm2a hd1a hd2a
    have hstep : importDeptStep idGen (st, s, f, n) (deptCsvRowOf d) =
        (st, s + 1, f, n + 1) := by
      rw [show deptCsvRowOf d =
          ⟨d.name, d.code, d.description, strftimeYMD dt,
            if d.isActive then "Yes" else "No"⟩ from by
        simp only [deptCsvRowOf, hest]]
      simp only [importDeptStep]
      rw [himp]
    rw [List.map_cons, List.foldl_cons, hstep,
      ih (fun x hx => hsub x (List.mem_cons_of_mem _ hx)) (s + 1) f (n + 1)]
    simp only [List.length_cons]
    refine congrArg _ ?_
    refine congrArg₂ _ (by omega) (congrArg _ (by omega))

/-- C10 (counterexample): the claimed hypotheses (upper-case codes, non-empty
names and descriptions, zero-time dates) do not make the department CSV round
trip the identity: a name carrying a trailing space is stripped by the import,
so the department's name changes; and a department whose code is the empty
string fails its row's required-field check, so the row does not succeed. -/
theorem C10_csv_roundtrip_counterexample :
    (import_departments_from_csv
        { emptyDb with departments :=
            [⟨"d1", "A ", "CE", "Civil branch", none,
              some ⟨2020, 1, 5, 0, 0, 0⟩, true⟩] }
        (export_departments_to_csv { emptyDb with departments :=
            [⟨"d1", "A ", "CE", "Civil branch", none,
              some ⟨2020, 1, 5, 0, 0, 0⟩, true⟩] })
        (fun _ => "u1") =
      ({ emptyDb with departments :=
            [⟨"d1", "A", "CE", "Civil branch", none,
              some ⟨2020, 1, 5, 0, 0, 0⟩, true⟩] }, 1, 0) ∧
      "A" ≠ "A ") ∧
    import_departments_from_csv
        { emptyDb with departments :=
            [⟨"d2", "B", "", "Desc", none, some ⟨2020, 1, 5, 0, 0, 0⟩, true⟩] }
        (export_departments_to_csv { emptyDb with departments :=
            [⟨"d2", "B", "", "Desc", none, some ⟨2020, 1, 5, 0, 0, 0⟩, true⟩] })
        (fun _ => "u2") =
      ({ emptyDb with departments :=
            [⟨"d2", "B", "", "Desc", none, some ⟨2020, 1, 5, 0, 0, 0⟩, true⟩] },
        0, 1) :=
  ⟨⟨by decide, by decide⟩, by decide⟩

/-- C10 (amended): on every state whose department codes are pairwise
distinct, non-empty, upper-case and whitespace-free, whose names and
descriptions are non-empty and whitespace-free, and whose established dates
are present, calendar-valid midnights with at-most-four-digit years,
importing the exact output of the export succeeds for every row, creates no
department, and leaves every department's name, code, description,
established_date and is_active unchanged: the final state is the input state,
with every row counted successful and none failed. -/
theorem C10_csv_roundtrip_amended (st : DbState) (idGen : Nat → String)
    (h : DeptRoundTripOK st) :
    import_departments_from_csv st (export_departments_to_csv st) idGen =
      (st, st.departments.length, 0) := by
  obtain ⟨hnd, hOK⟩ := h
  have hfold := importDeptStep_foldl_roundtrip st idGen hnd hOK st.departments
    (fun x hx => hx) 0 0 0
  simp only [import_departments_from_csv, export_departments_to_csv]
  rw [hfold]
  simp

/-- The amended C10 round trip evaluated at a concrete one-department
state. -/
theorem C10_csv_roundtrip_amended_witness :
    DeptRoundTripOK { emptyDb with departments :=
        [⟨"d1", "Civil Engineering", "CE", "Civil branch", none,
          some ⟨2020, 1, 5, 0, 0, 0⟩, true⟩] } ∧
    import_departments_from_csv
        { emptyDb with departments :=
          [⟨"d1", "Civil Engineering", "CE", "Civil branch", none,
            some ⟨2020, 1, 5, 0, 0, 0⟩, true⟩] }
        (export_departments_to_csv { emptyDb with departments :=
          [⟨"d1", "Civil Engineering", "CE", "Civil branch", none,
            some ⟨2020, 1, 5, 0, 0, 0⟩, true⟩] })
        (fun _ => "u1") =
      ({ emptyDb with departments :=
          [⟨"d1", "Civil Engineering", "CE", "Civil branch", none,
            some ⟨2020, 1, 5, 0, 0, 0⟩, true⟩] }, 1, 0) := by
  have hok : DeptRoundTripOK { emptyDb with departments :=
      [⟨"d1", "Civil Engineering", "CE", "Civil branch", none,
        some ⟨2020, 1, 5, 0, 0, 0⟩, true⟩] } := by
    refine ⟨by decide, ?_⟩
    intro dep hdep
    replace hdep : dep ∈ [(⟨"d1", "Civil Engineering", "CE", "Civil branch",
        none, some ⟨2020, 1, 5, 0, 0, 0⟩, true⟩ : Department)] := hdep
    rw [List.mem_singleton] at hdep
    subst hdep
    exact ⟨by decide, by decide, by decide, by decide, by decide, by decide,
      by decide, ⟨2020, 1, 5, 0, 0, 0⟩, rfl, rfl, rfl, rfl, by decide, by decide,
      by decide, by decide, by decide⟩
  exact ⟨hok, C10_csv_roundtrip_amended _ _ hok⟩

end Gpp
